import Mathlib

/-!
Verification of the offline htaccess rewrite engine
(`src/engine/parser.ts`, `src/engine/ast.ts`, `src/engine/evaluator.ts`,
`src/engine/regex-safety.ts`).

The TypeScript sources are translated into executable Lean definitions.
Two host facilities are not part of the repository's code and are modelled
as explicit oracle parameters:
  * `new URL(url)` (WHATWG URL parser of the JS runtime) becomes
    `Oracles.urlTry : String → Option JsUrl`; `none` models the constructor
    throwing, `some u` models a successful parse with the raw component
    strings `protocol`, `host`, `pathname`, `search`.
  * `new RegExp(pattern, flags)` / `subject.match(regex)` become
    `Oracles.reCompile` (whether construction succeeds) and
    `Oracles.reExec` (the first-match result: element 0 of the JS match
    array and the capture-group slice, where a non-participating group is
    `none`).
All string algorithms of the sources themselves (line splitting, trimming,
argument splitting, variable resolution, query handling, the literal
regexes hard-coded in the sources such as `/\r?\n/` or `/^\[|\]$/g`) are
implemented directly.
-/

namespace Htaccess

/-- Character class of the JS WhiteSpace / LineTerminator productions:
this is the set matched by `\s`, used by `String.prototype.trim` and by
the `/\s/` tests in the parser sources. -/
def isJsWhite (c : Char) : Bool :=
  c = ' ' || c = '\t' || c = '\n' || c = '\r' ||
  c = '\u000B' || c = '\u000C' || c = '\u00A0' || c = '\uFEFF' ||
  c = '\u1680' || (0x2000 <= c.toNat && c.toNat <= 0x200A) ||
  c = '\u2028' || c = '\u2029' || c = '\u202F' || c = '\u205F' || c = '\u3000'

/-- JS LineTerminator characters: these are the characters `.` does not
match in a regex without the `s` flag. -/
def isLineTermChar (c : Char) : Bool :=
  c = '\n' || c = '\r' || c = '\u2028' || c = '\u2029'

/-- Leading-whitespace removal on character lists. -/
def trimLeftChars (cs : List Char) : List Char :=
  cs.dropWhile isJsWhite

/-- Both-ends whitespace removal on character lists. -/
def trimChars (cs : List Char) : List Char :=
  ((trimLeftChars cs.reverse).reverse : List Char) |> trimLeftChars

/-- `String.prototype.trim`. -/
def jsTrim (s : String) : String :=
  String.mk (trimChars s.data)

/-- ASCII lower-casing, corresponding to `toLowerCase` on the ASCII
directive and flag names the sources compare against. -/
def lowerString (s : String) : String :=
  String.mk (s.data.map Char.toLower)

/-- ASCII upper-casing (`toUpperCase`). -/
def upperString (s : String) : String :=
  String.mk (s.data.map Char.toUpper)

/-- `prefixOf.data.isPrefixOf s.data`, i.e. `s.startsWith(p)`. -/
def strStarts (s p : String) : Bool :=
  p.data.isPrefixOf s.data

/-- `s.endsWith(p)`. -/
def strEnds (s p : String) : Bool :=
  p.data.reverse.isPrefixOf s.data.reverse

/-- Splitting on the regex `/\r?\n/` (`content.split(/\r?\n/)` in
`parser.ts`): `\r\n` and `\n` separate lines, a lone `\r` does not. -/
def splitLinesAux : List Char → List Char → List String
  | [], cur => [String.mk cur.reverse]
  | '\r' :: '\n' :: rest, cur => String.mk cur.reverse :: splitLinesAux rest []
  | '\n' :: rest, cur => String.mk cur.reverse :: splitLinesAux rest []
  | c :: rest, cur => splitLinesAux rest (c :: cur)

/-- Line tokenization of the parser: split the input on `\n` or `\r\n`. -/
def splitLines (s : String) : List String :=
  splitLinesAux s.data []

/-- Splitting a character list on one separator character
(`String.prototype.split` with a single-character separator). -/
def splitOnCharAux (sep : Char) : List Char → List Char → List String
  | [], cur => [String.mk cur.reverse]
  | c :: rest, cur =>
    if c = sep then String.mk cur.reverse :: splitOnCharAux sep rest []
    else splitOnCharAux sep rest (c :: cur)

/-- `s.split(sep)` for a single-character separator. -/
def splitOnChar (sep : Char) (s : String) : List String :=
  splitOnCharAux sep s.data []

/-- `parseInt(s, 10)`: skip leading whitespace, optional sign, then the
maximal digit prefix; `none` models `NaN`. -/
def jsParseInt (s : String) : Option Int :=
  let cs := s.data.dropWhile isJsWhite
  let signAndDigits : Int × List Char :=
    match cs with
    | '-' :: rest => (-1, rest)
    | '+' :: rest => (1, rest)
    | rest => (1, rest)
  let digits := signAndDigits.2.takeWhile (fun c => '0' ≤ c && c ≤ '9')
  if digits = [] then none
  else some (signAndDigits.1 * (Int.ofNat (digits.foldl (fun n c => n * 10 + (c.toNat - 48)) 0)))

/-- `parseInt(value, 10) || fallback` of the flag parser: both `NaN` and
`0` are falsy and select the fallback. -/
def jsParseIntOr (s : String) (fallback : Int) : Int :=
  match jsParseInt s with
  | none => fallback
  | some 0 => fallback
  | some n => n

/-- `flagsStr.replace(/^\[|\]$/g, '')`: one leading `[` and one trailing
`]` are removed, each when present. -/
def removeBrackets (s : String) : String :=
  let d1 := match s.data with
    | '[' :: rest => rest
    | l => l
  let d2 := if d1.getLast? = some ']' then d1.dropLast else d1
  String.mk d2

/-! ### AST (`src/engine/ast.ts`) -/

/-- Flags for `RewriteCond` (`CondFlags`). -/
structure CondFlags where
  nocase : Bool
  ornext : Bool
deriving DecidableEq

/-- `defaultCondFlags()`. -/
def defaultCondFlags : CondFlags :=
  { nocase := false, ornext := false }

/-- Flags for `RewriteRule` (`RuleFlags`); `end` is a Lean keyword and is
rendered `endFlag`. -/
structure RuleFlags where
  last : Bool
  redirect : Option Int
  nocase : Bool
  qsappend : Bool
  qsdiscard : Bool
  noescape : Bool
  next : Bool
  endFlag : Bool
  forbidden : Bool
  gone : Bool
  chain : Bool
  skip : Option Int
  passthrough : Bool
  proxy : Bool
  type : Option String
  env : List String
  cookie : List String
deriving DecidableEq

/-- `defaultRuleFlags()`. -/
def defaultRuleFlags : RuleFlags :=
  { last := false, redirect := none, nocase := false, qsappend := false,
    qsdiscard := false, noescape := false, next := false, endFlag := false,
    forbidden := false, gone := false, chain := false, skip := none,
    passthrough := false, proxy := false, type := none, env := [], cookie := [] }

/-- `RewriteCondDirective`. -/
structure CondDir where
  sourceLineNo : Nat
  rawLine : String
  testString : String
  condPattern : String
  flags : CondFlags
  isNegated : Bool
deriving DecidableEq

/-- `RewriteRuleDirective`. -/
structure RuleDir where
  sourceLineNo : Nat
  rawLine : String
  pattern : String
  substitution : String
  flags : RuleFlags
deriving DecidableEq

set_option synthInstance.maxHeartbeats 1000000 in
/-- The `AstNode` discriminated union (`on` is a Lean keyword and is
rendered `isOn`). -/
inductive AstNode where
  | rewriteEngine (sourceLineNo : Nat) (rawLine : String) (isOn : Bool)
  | rewriteBase (sourceLineNo : Nat) (rawLine : String) (base : String)
  | rewriteCond (c : CondDir)
  | rewriteRule (r : RuleDir)
  | blankLine (sourceLineNo : Nat) (rawLine : String)
  | comment (sourceLineNo : Nat) (rawLine : String) (text : String)
  | unknown (sourceLineNo : Nat) (rawLine : String) (directive args : String)
  | parseError (sourceLineNo : Nat) (rawLine : String) (message : String)
deriving DecidableEq

/-- The `sourceLineNo` common field of every node. -/
def AstNode.lineNo : AstNode → Nat
  | .rewriteEngine l _ _ => l
  | .rewriteBase l _ _ => l
  | .rewriteCond c => c.sourceLineNo
  | .rewriteRule r => r.sourceLineNo
  | .blankLine l _ => l
  | .comment l _ _ => l
  | .unknown l _ _ _ => l
  | .parseError l _ _ => l

/-- The `rawLine` common field of every node. -/
def AstNode.raw : AstNode → String
  | .rewriteEngine _ r _ => r
  | .rewriteBase _ r _ => r
  | .rewriteCond c => c.rawLine
  | .rewriteRule r => r.rawLine
  | .blankLine _ r => r
  | .comment _ r _ => r
  | .unknown _ r _ _ => r
  | .parseError _ r _ => r

/-- `HtaccessDocument`. -/
structure HtaccessDocument where
  nodes : List AstNode
deriving DecidableEq

/-! ### Parser (`src/engine/parser.ts`) -/

/-- `splitCondArgs` / `splitRuleArgs` (their bodies are identical in the
source): split on unquoted whitespace, honoring `"` and `'` pairs; quote
characters are consumed. The accumulator mirrors the `inQuote`,
`quoteChar`, `current` and `result` locals. -/
def splitArgsAux : List Char → Bool → Char → List Char → List String → List String
  | [], _, _, cur, acc =>
    (if cur ≠ [] then String.mk cur.reverse :: acc else acc).reverse
  | c :: rest, inQ, qc, cur, acc =>
    if !inQ && (c = '"' || c = Char.ofNat 39) then
      splitArgsAux rest true c cur acc
    else if inQ && c = qc then
      splitArgsAux rest false ' ' cur acc
    else if !inQ && isJsWhite c then
      if cur ≠ [] then splitArgsAux rest inQ qc [] (String.mk cur.reverse :: acc)
      else splitArgsAux rest inQ qc [] acc
    else
      splitArgsAux rest inQ qc (c :: cur) acc

/-- `splitCondArgs(args)`. -/
def splitCondArgs (args : String) : List String :=
  splitArgsAux args.data false ' ' [] []

/-- `splitRuleArgs(args)` (same body as `splitCondArgs`). -/
def splitRuleArgs (args : String) : List String :=
  splitArgsAux args.data false ' ' [] []

/-- `parseCondFlags(flagsStr)`. -/
def parseCondFlags (flagsStr : String) : CondFlags :=
  if flagsStr = "" then defaultCondFlags
  else
    let cleaned := removeBrackets flagsStr
    if cleaned = "" then defaultCondFlags
    else
      (splitOnChar ',' cleaned).foldl (fun flags part =>
        let flag := upperString (jsTrim part)
        if flag = "NC" || flag = "NOCASE" then { flags with nocase := true }
        else if flag = "OR" || flag = "ORNEXT" then { flags with ornext := true }
        else flags) defaultCondFlags

/-- One step of the `parseRuleFlags` loop body. -/
def applyRuleFlagToken (flags : RuleFlags) (part : String) : RuleFlags :=
  let flag := jsTrim part
  let upperFlag := upperString flag
  if flag.data.contains '=' then
    -- `flag.split('=', 2)`: the first two pieces
    let pieces := splitOnChar '=' flag
    let name := pieces.headD ""
    let value := (pieces.drop 1).headD ""
    let upperName := upperString name
    if upperName = "R" || upperName = "REDIRECT" then
      { flags with redirect := some (jsParseIntOr value 302) }
    else if upperName = "S" || upperName = "SKIP" then
      { flags with skip := some (jsParseIntOr value 1) }
    else if upperName = "T" || upperName = "TYPE" then
      { flags with type := some value }
    else if upperName = "E" || upperName = "ENV" then
      { flags with env := flags.env ++ [value] }
    else if upperName = "CO" || upperName = "COOKIE" then
      { flags with cookie := flags.cookie ++ [value] }
    else flags
  else
    if upperFlag = "L" || upperFlag = "LAST" then { flags with last := true }
    else if upperFlag = "R" || upperFlag = "REDIRECT" then { flags with redirect := some 302 }
    else if upperFlag = "NC" || upperFlag = "NOCASE" then { flags with nocase := true }
    else if upperFlag = "QSA" || upperFlag = "QSAPPEND" then { flags with qsappend := true }
    else if upperFlag = "QSD" || upperFlag = "QSDISCARD" then { flags with qsdiscard := true }
    else if upperFlag = "NE" || upperFlag = "NOESCAPE" then { flags with noescape := true }
    else if upperFlag = "N" || upperFlag = "NEXT" then { flags with next := true }
    else if upperFlag = "END" then { flags with endFlag := true }
    else if upperFlag = "F" || upperFlag = "FORBIDDEN" then { flags with forbidden := true }
    else if upperFlag = "G" || upperFlag = "GONE" then { flags with gone := true }
    else if upperFlag = "C" || upperFlag = "CHAIN" then { flags with chain := true }
    else if upperFlag = "PT" || upperFlag = "PASSTHROUGH" then { flags with passthrough := true }
    else if upperFlag = "P" || upperFlag = "PROXY" then { flags with proxy := true }
    else flags

/-- `parseRuleFlags(flagsStr)`. -/
def parseRuleFlags (flagsStr : String) : RuleFlags :=
  if flagsStr = "" then defaultRuleFlags
  else
    let cleaned := removeBrackets flagsStr
    if cleaned = "" then defaultRuleFlags
    else (splitOnChar ',' cleaned).foldl applyRuleFlagToken defaultRuleFlags

/-- `parseRewriteEngine(rawLine, lineNo, args)`. -/
def parseRewriteEngine (rawLine : String) (lineNo : Nat) (args : String) : AstNode :=
  let low := lowerString args
  if low = "on" then .rewriteEngine lineNo rawLine true
  else if low = "off" then .rewriteEngine lineNo rawLine false
  else .parseError lineNo rawLine ("Invalid RewriteEngine value: " ++ args)

/-- `parseRewriteBase(rawLine, lineNo, args)`. -/
def parseRewriteBase (rawLine : String) (lineNo : Nat) (args : String) : AstNode :=
  if args = "" then .parseError lineNo rawLine "RewriteBase requires a path argument"
  else .rewriteBase lineNo rawLine args

/-- `parseRewriteCond(rawLine, lineNo, args)`. -/
def parseRewriteCond (rawLine : String) (lineNo : Nat) (args : String) : AstNode :=
  let parts := splitCondArgs args
  match parts with
  | p0 :: p1 :: rest =>
    let flagsStr := rest.headD ""
    let isNegated := strStarts p1 "!"
    let condPattern := if isNegated then String.mk (p1.data.drop 1) else p1
    .rewriteCond
      { sourceLineNo := lineNo, rawLine := rawLine, testString := p0,
        condPattern := condPattern, flags := parseCondFlags flagsStr,
        isNegated := isNegated }
  | _ => .parseError lineNo rawLine "RewriteCond requires TestString and CondPattern"

/-- `parseRewriteRule(rawLine, lineNo, args)`. -/
def parseRewriteRule (rawLine : String) (lineNo : Nat) (args : String) : AstNode :=
  let parts := splitRuleArgs args
  match parts with
  | p0 :: p1 :: rest =>
    let flagsStr := rest.headD ""
    .rewriteRule
      { sourceLineNo := lineNo, rawLine := rawLine, pattern := p0,
        substitution := p1, flags := parseRuleFlags flagsStr }
  | _ => .parseError lineNo rawLine "RewriteRule requires Pattern and Substitution"

/-- `parseDirective(rawLine, lineNo, trimmed)`: the source matches
`/^(\S+)\s*(.*)?$/` on the trimmed line. Since the line is trimmed and
non-empty the match can only fail when an unconsumed JS LineTerminator
(a lone `\r`, ` ` or ` `) remains in the argument tail, because
`.` does not match those. -/
def parseDirective (rawLine : String) (lineNo : Nat) (trimmed : String) : AstNode :=
  let tokenD := trimmed.data.takeWhile (fun c => !isJsWhite c)
  let argsD := (trimmed.data.drop tokenD.length).dropWhile isJsWhite
  if argsD.any isLineTermChar then .parseError lineNo rawLine "Invalid syntax"
  else
    let directive := lowerString (String.mk tokenD)
    let args := jsTrim (String.mk argsD)
    if directive = "rewriteengine" then parseRewriteEngine rawLine lineNo args
    else if directive = "rewritebase" then parseRewriteBase rawLine lineNo args
    else if directive = "rewritecond" then parseRewriteCond rawLine lineNo args
    else if directive = "rewriterule" then parseRewriteRule rawLine lineNo args
    else .unknown lineNo rawLine (String.mk tokenD) args

/-- `parseLine(rawLine, lineNo)`. -/
def parseLine (rawLine : String) (lineNo : Nat) : AstNode :=
  let trimmed := jsTrim rawLine
  if trimmed = "" then .blankLine lineNo rawLine
  else if strStarts trimmed "#" then
    .comment lineNo rawLine (jsTrim (String.mk (trimmed.data.drop 1)))
  else parseDirective rawLine lineNo trimmed

/-- `parse(content)`: split into lines, one node per line. -/
def parse (content : String) : HtaccessDocument :=
  ⟨(splitLines content).enum.map (fun p => parseLine p.2 (p.1 + 1))⟩

/-! ### Shared types (`src/shared/types.ts`) -/

/-- `TraceLine`. -/
structure TraceLine where
  lineNo : Nat
  rawLine : String
  valid : Bool
  reached : Bool
  met : Bool
  message : Option String
deriving DecidableEq

/-- `EngineStatus`. -/
inductive EngineStatus where
  | ok
  | redirect
  | error
  | unsupported
  | limitExceeded
deriving DecidableEq

/-- `EngineOutput`. -/
structure EngineOutput where
  finalUrl : String
  status : EngineStatus
  statusCode : Option Int
  trace : List TraceLine
deriving DecidableEq

/-- `EngineConfig`. -/
structure EngineConfig where
  maxIterations : Nat
  maxUrlLength : Nat
  maxRegexSubjectLength : Nat
  maxRuleCount : Nat
deriving DecidableEq

/-- `DEFAULT_ENGINE_CONFIG`. -/
def DEFAULT_ENGINE_CONFIG : EngineConfig :=
  { maxIterations := 100, maxUrlLength := 8192,
    maxRegexSubjectLength := 2048, maxRuleCount := 1000 }

/-- `EngineInput`; `serverVariables` is the caller's string map, modelled
as a partial lookup function. -/
structure EngineInput where
  url : String
  rules : String
  serverVariables : String → Option String

/-! ### Host oracles

`new URL` and the JS regex engine are runtime facilities, not code of this
repository; they enter the model as explicit parameters. -/

/-- The component strings of a successfully constructed WHATWG `URL`
object, exactly as the evaluator reads them: `protocol` (with trailing
colon), `host`, `pathname` (with leading slash), `search` (with leading
question mark). -/
structure JsUrl where
  protocol : String
  host : String
  pathname : String
  search : String
deriving DecidableEq

/-- The result of `subject.match(regex)`: `full` is element 0, `captures`
is `match.slice(1)` where a non-participating group is `none`. -/
structure MatchResult where
  full : String
  captures : List (Option String)
deriving DecidableEq

/-- The host facilities used by the evaluator: `urlTry url` is
`new URL(url)` (`none` = throws); `reCompile pattern nocase` tells whether
`new RegExp(pattern, nocase ? 'i' : '')` succeeds; `reExec pattern nocase
subject` is `subject.match(regex)` for that compiled regex. -/
structure Oracles where
  urlTry : String → Option JsUrl
  reCompile : String → Bool → Bool
  reExec : String → Bool → String → Option MatchResult

/-! ### URL handling (`parseUrl`, `buildUrl` in `evaluator.ts`) -/

/-- Parsed URL components as the evaluator stores them. -/
structure UrlParts where
  scheme : String
  host : String
  path : String
  query : String
deriving DecidableEq

/-- `s.replace(':', '')`: remove the first occurrence of a character. -/
def removeFirstOcc (c : Char) : List Char → List Char
  | [] => []
  | x :: rest => if x = c then rest else x :: removeFirstOcc c rest

/-- `s.replace(/^\//, '')`. -/
def dropLeadSlash (s : String) : String :=
  match s.data with
  | '/' :: rest => String.mk rest
  | _ => s

/-- `s.replace(/^\?/, '')`. -/
def dropLeadQuestion (s : String) : String :=
  match s.data with
  | '?' :: rest => String.mk rest
  | _ => s

/-- `s.replace(/\/$/, '')`: remove one trailing slash. -/
def dropTrailSlash (s : String) : String :=
  if s.data.getLast? = some '/' then String.mk s.data.dropLast else s

/-- The fallback regex of `parseUrl`:
`url.match(/^(https?):\/\/([^\/]+)(\/[^?]*)?(\?.*)?$/)`, already composed
with the component post-processing of `parseUrl` (strip the leading `/`
of the path group, strip the leading `?` of the query group, and
`match[3] || '/'` for a missing path group). The `.*` of the query group
cannot match a JS LineTerminator, so a LineTerminator after the first `?`
makes the whole match fail. -/
def fallbackUrlMatch (url : String) : Option UrlParts :=
  let schemeSplit : Option (String × List Char) :=
    if strStarts url "https://" then some ("https", url.data.drop 8)
    else if strStarts url "http://" then some ("http", url.data.drop 7)
    else none
  match schemeSplit with
  | none => none
  | some (scheme, rest) =>
    let hostD := rest.takeWhile (fun c => c ≠ '/')
    if hostD = [] then none
    else
      match rest.drop hostD.length with
      | [] => some ⟨scheme, String.mk hostD, "", ""⟩
      | '/' :: tail =>
        let pathD := tail.takeWhile (fun c => c ≠ '?')
        match tail.drop pathD.length with
        | [] => some ⟨scheme, String.mk hostD, String.mk pathD, ""⟩
        | '?' :: qtail =>
          if qtail.any isLineTermChar then none
          else some ⟨scheme, String.mk hostD, String.mk pathD, String.mk qtail⟩
        | _ :: _ => none
      | _ :: _ => none

/-- `parseUrl(url)`: try `new URL` (the oracle value), fall back to the
regex, then to `{scheme: 'http', host: '', path: url, query: ''}`. -/
def parseUrl (u : Option JsUrl) (url : String) : UrlParts :=
  match u with
  | some j =>
    ⟨String.mk (removeFirstOcc ':' j.protocol.data), j.host,
     dropLeadSlash j.pathname, dropLeadQuestion j.search⟩
  | none =>
    match fallbackUrlMatch url with
    | some p => p
    | none => ⟨"http", "", url, ""⟩

/-- `buildUrl(scheme, host, path, query)`. -/
def buildUrl (scheme host path query : String) : String :=
  let normalizedPath := if strStarts path "/" then path else "/" ++ path
  let queryPart := if query ≠ "" then "?" ++ query else ""
  scheme ++ "://" ++ host ++ normalizedPath ++ queryPart

/-! ### Evaluator state (`EvalState`, `initState` in `evaluator.ts`) -/

/-- `EvalState`: the mutable evaluation state. `env` is the merged
server-variable record. -/
structure EvalState where
  inputUrl : String
  currentPath : String
  queryString : String
  scheme : String
  host : String
  env : String → Option String
  ruleCaptures : List (Option String)
  condCaptures : List (Option String)
  stopped : Bool
  hardStop : Bool
  redirect : Option Int
  iterations : Nat
  rewriteBase : String
  engineEnabled : Bool

/-- `initState(input)`: the spread `{...serverVariables, REQUEST_URI,
QUERY_STRING}` lets the two synthesized keys override the caller's. -/
def initState (O : Oracles) (input : EngineInput) : EvalState :=
  let p := parseUrl (O.urlTry input.url) input.url
  { inputUrl := input.url
    currentPath := p.path
    queryString := p.query
    scheme := p.scheme
    host := p.host
    env := fun n =>
      if n = "REQUEST_URI" then
        some ("/" ++ p.path ++ (if p.query ≠ "" then "?" ++ p.query else ""))
      else if n = "QUERY_STRING" then some p.query
      else input.serverVariables n
    ruleCaptures := []
    condCaptures := []
    stopped := false
    hardStop := false
    redirect := none
    iterations := 0
    rewriteBase := "/"
    engineEnabled := false }

/-! ### Variable resolution (`resolveVariables` in `evaluator.ts`) -/

/-- The global replace `result.replace(/%\{([^}]+)\}/g, ...)`. The second
argument is `none` while scanning normally, and `some buf` (the reversed
name characters collected so far) after an opening brace sequence whose
closing brace has not yet been seen; an unterminated or empty reference
stays literal text, exactly as a failed regex match leaves it. -/
def pctBraceAux (env : String → Option String) : List Char → Option (List Char) → List Char
  | [], none => []
  | [], some buf => '%' :: '{' :: buf.reverse
  | '%' :: '{' :: rest2, none => pctBraceAux env rest2 (some [])
  | c :: rest, none => c :: pctBraceAux env rest none
  | '}' :: rest, some [] => '%' :: '{' :: '}' :: pctBraceAux env rest none
  | '}' :: rest, some buf =>
    ((env (String.mk buf.reverse)).getD "").data ++ pctBraceAux env rest none
  | c :: rest, some buf => pctBraceAux env rest (some (c :: buf))

/-- Capture lookup `captures[index] ?? ''` (both a missing slot and an
`undefined` entry resolve to the empty string). -/
def capGet (caps : List (Option String)) (i : Nat) : String :=
  (caps.getD i none).getD ""

/-- The global replace `result.replace(/\$([1-9])/g, ...)`. -/
def dollarNumAux (caps : List (Option String)) : List Char → List Char
  | '$' :: c :: rest =>
    if '1' ≤ c && c ≤ '9' then
      (capGet caps (c.toNat - 49)).data ++ dollarNumAux caps rest
    else '$' :: dollarNumAux caps (c :: rest)
  | ['$'] => ['$']
  | c :: rest => c :: dollarNumAux caps rest
  | [] => []

/-- The global replace `result.replace(/%([1-9])/g, ...)`. -/
def pctNumAux (caps : List (Option String)) : List Char → List Char
  | '%' :: c :: rest =>
    if '1' ≤ c && c ≤ '9' then
      (capGet caps (c.toNat - 49)).data ++ pctNumAux caps rest
    else '%' :: pctNumAux caps (c :: rest)
  | ['%'] => ['%']
  | c :: rest => c :: pctNumAux caps rest
  | [] => []

/-- `resolveVariables(template, state)`: `%{VAR}`, then `$N`, then `%N`. -/
def resolveVariables (template : String) (st : EvalState) : String :=
  let r1 := pctBraceAux st.env template.data none
  let r2 := dollarNumAux st.ruleCaptures r1
  let r3 := pctNumAux st.condCaptures r2
  String.mk r3

/-! ### Condition evaluation (`evaluateCond`, `evaluateConditionGroup`) -/

/-- The result record `{met, captures}` of `evaluateCond`. -/
structure CondResult where
  met : Bool
  captures : List (Option String)
deriving DecidableEq

/-- `evaluateCond(cond, state)`: resolve the test string, compile the
pattern (`createRegex`: plain `new RegExp`, no safety layer), match,
negate. -/
def evaluateCond (O : Oracles) (c : CondDir) (st : EvalState) : CondResult :=
  let testString := resolveVariables c.testString st
  if O.reCompile c.condPattern c.flags.nocase then
    match O.reExec c.condPattern c.flags.nocase testString with
    | some m =>
      { met := if c.isNegated then false else true, captures := m.captures }
    | none =>
      { met := if c.isNegated then true else false, captures := [] }
  else
    { met := false, captures := [] }

/-- The loop of `evaluateConditionGroup`, with the accumulator variables
`groupResult` (`g`), `orResult` (`o`), `inOrChain` (`inOr`) and
`lastCaptures` (`caps`). -/
def evalGroupLoop (O : Oracles) (st : EvalState) :
    List CondDir → Bool → Bool → Bool → List (Option String) → Bool × List (Option String)
  | [], g, o, inOr, caps => (if inOr then g && o else g, caps)
  | c :: rest, g, o, inOr, caps =>
    if inOr && o then
      if !c.flags.ornext then evalGroupLoop O st rest (g && o) false false caps
      else evalGroupLoop O st rest g o inOr caps
    else
      let r := evaluateCond O c st
      let caps' := if r.met && r.captures ≠ [] then r.captures else caps
      if c.flags.ornext then evalGroupLoop O st rest g (o || r.met) true caps'
      else if inOr then evalGroupLoop O st rest (g && (o || r.met)) false false caps'
      else evalGroupLoop O st rest (g && r.met) o inOr caps'

/-- `evaluateConditionGroup(conditions, state)`. -/
def evaluateConditionGroup (O : Oracles) (conds : List CondDir) (st : EvalState) : CondResult :=
  match conds with
  | [] => { met := true, captures := [] }
  | _ =>
    let r := evalGroupLoop O st conds true false false []
    { met := r.1, captures := r.2 }

/-! ### Trace lines (`createTraceLine` in `evaluator.ts`) -/

/-- `createTraceLine(node, reached, met, valid, message)`. -/
def createTraceLine (node : AstNode) (reached met valid : Bool)
    (message : Option String) : TraceLine :=
  { lineNo := node.lineNo, rawLine := jsTrim node.raw, valid := valid,
    reached := reached, met := met, message := message }

/-- The condition-trace loop inside the `RewriteRule` case of `evaluate`
(the `orShortCircuited` flag is the second argument). -/
def condTraceLoop (O : Oracles) (st : EvalState) :
    List CondDir → Bool → List TraceLine
  | [], _ => []
  | c :: rest, sc =>
    if sc then
      createTraceLine (.rewriteCond c) false false true none ::
        condTraceLoop O st rest (if !c.flags.ornext then false else true)
    else
      let r := evaluateCond O c st
      createTraceLine (.rewriteCond c) true r.met true none ::
        condTraceLoop O st rest (c.flags.ornext && r.met)

/-! ### Substitution (`applySubstitution` in `evaluator.ts`) -/

/-- The replace `substitution.replace(/\$([0-9])/g, ...)` against the full
match array (`$0` is the whole match). -/
def dollarDigitAux (m : MatchResult) : List Char → List Char
  | '$' :: c :: rest =>
    if '0' ≤ c && c ≤ '9' then
      (if c = '0' then m.full else capGet m.captures (c.toNat - 49)).data ++
        dollarDigitAux m rest
    else '$' :: dollarDigitAux m (c :: rest)
  | ['$'] => ['$']
  | c :: rest => c :: dollarDigitAux m rest
  | [] => []

/-- `/^https?:\/\//i.test(substitution)`. -/
def isAbsoluteHttpUrl (s : String) : Bool :=
  strStarts (lowerString s) "http://" || strStarts (lowerString s) "https://"

/-- `substitution.indexOf('?')` split: path before the first `?`, query
after it. -/
def splitAtFirstQuestion (s : String) : String × String :=
  let pre := s.data.takeWhile (fun c => c ≠ '?')
  match s.data.drop pre.length with
  | '?' :: post => (String.mk pre, String.mk post)
  | _ => (s, "")

/-- `applySubstitution(rule, state, match)`: returns `(newPath, newQuery)`
together with the updated state (it stores `ruleCaptures`, and overwrites
`scheme`/`host` in the absolute-URL case). -/
def applySubstitution (O : Oracles) (rule : RuleDir) (st : EvalState)
    (m : MatchResult) : String × String × EvalState :=
  let st := { st with ruleCaptures := m.captures }
  if rule.substitution = "-" then (st.currentPath, st.queryString, st)
  else
    let s1 := resolveVariables rule.substitution st
    let substitution := String.mk (dollarDigitAux m s1.data)
    if isAbsoluteHttpUrl substitution then
      let p := parseUrl (O.urlTry substitution) substitution
      let st := { st with scheme := p.scheme, host := p.host }
      let fq1 :=
        if rule.flags.qsappend && st.queryString ≠ "" then
          (if p.query ≠ "" then p.query ++ "&" ++ st.queryString else st.queryString)
        else p.query
      let finalQuery := if rule.flags.qsdiscard then p.query else fq1
      (p.path, finalQuery, st)
    else
      let pq := splitAtFirstQuestion substitution
      let newPath0 := pq.1
      let newQuery0 := pq.2
      let newPath :=
        if !strStarts newPath0 "/" && st.rewriteBase ≠ "/" then
          st.rewriteBase ++ newPath0
        else newPath0
      let newQuery :=
        if rule.flags.qsdiscard then newQuery0
        else if rule.flags.qsappend && st.queryString ≠ "" then
          (if newQuery0 ≠ "" then newQuery0 ++ "&" ++ st.queryString else st.queryString)
        else if newQuery0 = "" && !rule.flags.qsdiscard then st.queryString
        else newQuery0
      (newPath, newQuery, st)

/-- `applyRuleFlags(flags, state)`. -/
def applyRuleFlags (f : RuleFlags) (st : EvalState) : EvalState :=
  let st := match f.redirect with
    | some r => { st with redirect := some r, stopped := true }
    | none => st
  let st := if f.forbidden then { st with redirect := some 403, stopped := true } else st
  let st := if f.gone then { st with redirect := some 410, stopped := true } else st
  let st := if f.last then { st with stopped := true } else st
  if f.endFlag then { st with hardStop := true, stopped := true } else st

/-! ### Main evaluation loop (`evaluate` in `evaluator.ts`) -/

/-- The loop variables of `evaluate`: the mutable state, the `trace`
array, and the `pendingConditions` array. -/
structure LoopSt where
  state : EvalState
  trace : List TraceLine
  pending : List CondDir

/-- The body of the `RewriteRule` case of `evaluate` when the rule is
reached (engine on, not stopped): increment `iterations`, evaluate the
pending condition group, emit the condition traces, store the condition
captures, then try the rule pattern. -/
def processReachedRule (O : Oracles) (ls : LoopSt) (r : RuleDir) : LoopSt :=
  let node : AstNode := .rewriteRule r
  let st0 := { ls.state with iterations := ls.state.iterations + 1 }
  let condResult := evaluateConditionGroup O ls.pending st0
  let condTraces := condTraceLoop O st0 ls.pending false
  let st1 :=
    if condResult.met && condResult.captures ≠ [] then
      { st0 with condCaptures := condResult.captures }
    else st0
  if !condResult.met then
    { state := st1,
      trace := ls.trace ++ condTraces ++ [createTraceLine node false false true none],
      pending := [] }
  else if !(O.reCompile r.pattern r.flags.nocase) then
    { state := st1,
      trace := ls.trace ++ condTraces ++
        [createTraceLine node true false false (some "Invalid regex pattern")],
      pending := [] }
  else
    let baseSeg := dropTrailSlash (dropLeadSlash st1.rewriteBase)
    let matchPath :=
      if baseSeg ≠ "" && strStarts st1.currentPath (baseSeg ++ "/") then
        String.mk (st1.currentPath.data.drop (baseSeg.data.length + 1))
      else if baseSeg ≠ "" && st1.currentPath = baseSeg then ""
      else st1.currentPath
    match O.reExec r.pattern r.flags.nocase matchPath with
    | none =>
      { state := st1,
        trace := ls.trace ++ condTraces ++ [createTraceLine node true false true none],
        pending := [] }
    | some m =>
      let res := applySubstitution O r st1 m
      let st2 := { res.2.2 with currentPath := res.1, queryString := res.2.1 }
      let st3 := applyRuleFlags r.flags st2
      { state := st3,
        trace := ls.trace ++ condTraces ++ [createTraceLine node true true true none],
        pending := [] }

/-- One iteration of the `for` loop of `evaluate` (the `switch` over the
node kind), without the iteration-cap check. -/
def stepNode (O : Oracles) (ls : LoopSt) (node : AstNode) : LoopSt :=
  match node with
  | .blankLine _ _ => ls
  | .comment _ _ _ =>
    { ls with trace := ls.trace ++ [createTraceLine node true true true none] }
  | .rewriteEngine _ _ isOn =>
    { ls with
      state := { ls.state with engineEnabled := isOn }
      trace := ls.trace ++ [createTraceLine node true true true none] }
  | .rewriteBase _ _ base =>
    let ls' := { ls with
      trace := ls.trace ++ [createTraceLine node ls.state.engineEnabled true true none] }
    if ls'.state.engineEnabled then
      { ls' with state := { ls'.state with
          rewriteBase := if strEnds base "/" then base else base ++ "/" } }
    else ls'
  | .rewriteCond c =>
    if !ls.state.engineEnabled then
      { ls with trace := ls.trace ++ [createTraceLine node false false true none] }
    else if ls.state.stopped || ls.state.hardStop then
      { ls with trace := ls.trace ++ [createTraceLine node false false true none] }
    else
      { ls with pending := ls.pending ++ [c] }
  | .rewriteRule r =>
    if !ls.state.engineEnabled then
      { ls with
        trace := ls.trace ++
          ls.pending.map (fun c => createTraceLine (.rewriteCond c) false false true none) ++
          [createTraceLine node false false true none],
        pending := [] }
    else if ls.state.stopped || ls.state.hardStop then
      { ls with
        trace := ls.trace ++
          ls.pending.map (fun c => createTraceLine (.rewriteCond c) false false true none) ++
          [createTraceLine node false false true none],
        pending := [] }
    else processReachedRule O ls r
  | .unknown _ _ d _ =>
    { ls with trace := ls.trace ++
        [createTraceLine node ls.state.engineEnabled false true
          (some ("Unsupported directive: " ++ d))] }
  | .parseError _ _ msg =>
    { ls with trace := ls.trace ++ [createTraceLine node true false false (some msg)] }

/-- The early-return output of the iteration-cap check. -/
def limitOutput (ls : LoopSt) : EngineOutput :=
  { finalUrl := buildUrl ls.state.scheme ls.state.host ls.state.currentPath ls.state.queryString
    status := .limitExceeded
    statusCode := ls.state.redirect
    trace := ls.trace }

/-- The final-status output after the loop completes. -/
def finalizeOutput (ls : LoopSt) : EngineOutput :=
  { finalUrl := buildUrl ls.state.scheme ls.state.host ls.state.currentPath ls.state.queryString
    status := match ls.state.redirect with
      | some _ => .redirect
      | none => .ok
    statusCode := ls.state.redirect
    trace := ls.trace }

/-- The `for` loop of `evaluate`: before processing each node the
iteration cap is checked and, when exceeded, the function returns the
`limit-exceeded` output immediately (`Sum.inr`); otherwise the loop ends
with the final loop state (`Sum.inl`). -/
def runNodes (cfg : EngineConfig) (O : Oracles) :
    List AstNode → LoopSt → LoopSt ⊕ EngineOutput
  | [], ls => .inl ls
  | n :: rest, ls =>
    if ls.state.iterations > cfg.maxIterations then .inr (limitOutput ls)
    else runNodes cfg O rest (stepNode O ls n)

/-- `evaluate(input, config)`. -/
def evaluate (O : Oracles) (input : EngineInput) (cfg : EngineConfig) : EngineOutput :=
  let st := initState O input
  let doc := parse input.rules
  match runNodes cfg O doc.nodes { state := st, trace := [], pending := [] } with
  | .inl ls => finalizeOutput ls
  | .inr out => out

/-! ### Regex Safety Layer (`src/engine/regex-safety.ts`)

The evaluator's `createRegex` does **not** consult this module; it is
embedded here because the specification (and claim C1) say rule and
condition patterns are compiled through it. -/

/-- `RegexSafetyResult`. -/
structure RegexSafetyResult where
  safe : Bool
  reason : Option String
deriving DecidableEq

/-- Scanner for `/\([^)]*[+*][^)]*\)[+*]/.test(pattern)` starting right
after an opening parenthesis: the bracket class `[^)]` forces the closing
parenthesis of a match to be the first one after its `(`; `saw` records
whether a `+` or `*` has occurred since the `(`. -/
def nestedQuantFrom : Bool → List Char → Bool
  | saw, ')' :: c :: _ => saw && (c = '+' || c = '*')
  | _, ')' :: [] => false
  | saw, c :: rest => nestedQuantFrom (saw || c = '+' || c = '*') rest
  | _, [] => false

/-- `/\([^)]*[+*][^)]*\)[+*]/.test(pattern)`: some `(` is followed (before
the next `)`) by a `+` or `*`, and the character right after that `)` is
again a `+` or `*`. -/
def hasNestedQuantifiers : List Char → Bool
  | [] => false
  | '(' :: rest => nestedQuantFrom false rest || hasNestedQuantifiers rest
  | _ :: rest => hasNestedQuantifiers rest

/-- Scanner for `/\([^)]*\|[^)]*\)[+*]{2,}/.test(pattern)` starting right
after an opening parenthesis (`saw` records a `|` since the `(`; the
closing parenthesis must be followed by at least two `+`/`*`). -/
def overlapAltFrom : Bool → List Char → Bool
  | saw, ')' :: c1 :: c2 :: _ =>
    saw && (c1 = '+' || c1 = '*') && (c2 = '+' || c2 = '*')
  | _, ')' :: _ => false
  | saw, c :: rest => overlapAltFrom (saw || c = '|') rest
  | _, [] => false

/-- `/\([^)]*\|[^)]*\)[+*]{2,}/.test(pattern)`. -/
def hasOverlappingAlternatives : List Char → Bool
  | [] => false
  | '(' :: rest => overlapAltFrom false rest || hasOverlappingAlternatives rest
  | _ :: rest => hasOverlappingAlternatives rest

/-- `checkPatternSafety(pattern, config)`. -/
def checkPatternSafety (pattern : String) (cfg : EngineConfig) : RegexSafetyResult :=
  if pattern.data.length > cfg.maxRegexSubjectLength then
    { safe := false,
      reason := some ("Pattern too long (" ++ toString pattern.data.length ++ " > " ++
        toString cfg.maxRegexSubjectLength ++ ")") }
  else if hasNestedQuantifiers pattern.data then
    { safe := false, reason := some "Potentially dangerous nested quantifiers detected" }
  else if hasOverlappingAlternatives pattern.data then
    { safe := false, reason := some "Potentially dangerous overlapping alternatives detected" }
  else { safe := true, reason := none }

/-! ### Specification-side definitions

These definitions transcribe the wording of the specification (not the
code); the refinement theorems below compare the code's functions against
them. -/

/-- Whether one condition matches, in the sense of `evaluateCond`. -/
def condMet (O : Oracles) (st : EvalState) (c : CondDir) : Bool :=
  (evaluateCond O c st).met

/-- Spec: split a condition group into its OR chains, the maximal runs in
which every member except possibly the last carries `ornext` (a trailing
`ornext` terminates the last chain at the end of the group). -/
def orChains : List CondDir → List (List CondDir)
  | [] => []
  | c :: rest =>
    if c.flags.ornext then
      match orChains rest with
      | [] => [[c]]
      | ch :: chs => (c :: ch) :: chs
    else [c] :: orChains rest

/-- The first OR chain of a condition list together with the remaining
chains, treating the list as the continuation of a chain already begun. -/
def orChainHead : List CondDir → List CondDir × List (List CondDir)
  | [] => ([], [])
  | c :: rest =>
    if c.flags.ornext then
      let p := orChainHead rest
      (c :: p.1, p.2)
    else ([c], orChains rest)

/-- Spec: an OR chain is satisfied iff some member matches. -/
def chainSat (O : Oracles) (st : EvalState) (chain : List CondDir) : Bool :=
  chain.any (condMet O st)

/-- Spec: the group is satisfied iff all of its OR chains are satisfied. -/
def groupSatSpec (O : Oracles) (st : EvalState) (conds : List CondDir) : Bool :=
  (orChains conds).all (chainSat O st)

/-- The trace line of a condition that was evaluated. -/
def condEvalTrace (O : Oracles) (st : EvalState) (c : CondDir) : TraceLine :=
  createTraceLine (.rewriteCond c) true (evaluateCond O c st).met true none

/-- The trace line of a condition that was skipped
(`reached=false`, `met=false`). -/
def condSkipTrace (c : CondDir) : TraceLine :=
  createTraceLine (.rewriteCond c) false false true none

/-- Spec: the trace of one OR chain — members are evaluated in order and,
once a member with the `ornext` flag matches, the remaining members of
the chain are short-circuited and traced `reached=false`, `met=false`. -/
def chainTraceSpec (O : Oracles) (st : EvalState) : List CondDir → List TraceLine
  | [] => []
  | c :: rest =>
    condEvalTrace O st c ::
      (if c.flags.ornext && (evaluateCond O c st).met then rest.map condSkipTrace
       else chainTraceSpec O st rest)

/-! ### Node predicates and counters used by the claims -/

/-- Whether a node is a blank line. -/
def isBlankNode : AstNode → Bool
  | .blankLine _ _ => true
  | _ => false

/-- Whether a node is a `RewriteRule` directive. -/
def isRuleNode : AstNode → Bool
  | .rewriteRule _ => true
  | _ => false

/-- Whether a node is `RewriteEngine On`. -/
def isEngineOnNode : AstNode → Bool
  | .rewriteEngine _ _ isOn => isOn
  | _ => false

/-- Whether a node is a blank line or a comment. -/
def isBlankOrComment : AstNode → Bool
  | .blankLine _ _ => true
  | .comment _ _ _ => true
  | _ => false

/-- Count of non-blank source lines of a rules text. -/
def countNonBlank (rules : String) : Nat :=
  ((splitLines rules).filter (fun l => jsTrim l ≠ "")).length

/-- Count of `RewriteRule` nodes. -/
def countRuleNodes (nodes : List AstNode) : Nat :=
  (nodes.filter isRuleNode).length

/-- Claim C3's hypothesis: skipping blank lines and comments, the first
directive is `RewriteEngine Off`, and no later node is
`RewriteEngine On`. -/
def firstDirectiveOffNoLaterOn : List AstNode → Bool
  | [] => false
  | n :: rest =>
    if isBlankOrComment n then firstDirectiveOffNoLaterOn rest
    else
      match n with
      | .rewriteEngine _ _ false => rest.all (fun m => !isEngineOnNode m)
      | _ => false

/-! ### Concrete fixtures for witnesses and counterexamples -/

/-- Regex-oracle exec table: first match of `(pattern, subject)` wins;
`nocase` is irrelevant for these fixtures. -/
def execTable (tbl : List ((String × String) × MatchResult)) :
    String → Bool → String → Option MatchResult :=
  fun pat _ subj => (tbl.find? (fun e => e.1.1 = pat && e.1.2 = subj)).map (·.2)

/-- Oracle for inputs whose URL makes `new URL` throw, whose regexes all
compile, and whose matches all fail. -/
def oraclePlain : Oracles :=
  { urlTry := fun _ => none, reCompile := fun _ _ => true, reExec := fun _ _ _ => none }

/-- Oracle for claim C1's scenario: `new URL("http://example.com/aaaa")`
succeeds with pathname `/aaaa`; `new RegExp("^(a+)+$")` compiles (the
pattern is valid JS regex syntax); greedy matching of `^(a+)+$` against
`aaaa` succeeds with the single group capturing `aaaa`. -/
def oracleC1 : Oracles :=
  { urlTry := fun u =>
      if u = "http://example.com/aaaa" then some ⟨"http:", "example.com", "/aaaa", ""⟩
      else none
    reCompile := fun _ _ => true
    reExec := execTable [(("^(a+)+$", "aaaa"), ⟨"aaaa", [some "aaaa"]⟩)] }

/-- Claim C1's engine input. -/
def inputC1 : EngineInput :=
  { url := "http://example.com/aaaa"
    rules := "RewriteEngine On\nRewriteRule ^(a+)+$ /boom [L]"
    serverVariables := fun _ => none }

/-- Claim C2's counterexample inputs: a trailing `RewriteCond` with no
following rule, and a comment standing between a condition and its rule. -/
def inputC2a : EngineInput :=
  { url := "a", rules := "RewriteEngine On\nRewriteCond a b",
    serverVariables := fun _ => none }

/-- Second claim C2 input (trace order). -/
def inputC2b : EngineInput :=
  { url := "a", rules := "RewriteEngine On\nRewriteCond a b\n# c\nRewriteRule x y",
    serverVariables := fun _ => none }

/-- Claim C3's counterexample input: `new URL("http://x y")` throws (the
space is a forbidden host code point), the fallback regex matches with
host `x y` and no path group. -/
def inputC3 : EngineInput :=
  { url := "http://x y", rules := "RewriteEngine Off", serverVariables := fun _ => none }

/-- Claim C3's witness input (spec scenario 1). -/
def inputC3w : EngineInput :=
  { url := "http://example.com/test"
    rules := "RewriteEngine Off\nRewriteRule ^test$ /changed [L]"
    serverVariables := fun _ => none }

/-- Oracle for `inputC3w`: `new URL("http://example.com/test")` succeeds. -/
def oracleC3w : Oracles :=
  { urlTry := fun u =>
      if u = "http://example.com/test" then some ⟨"http:", "example.com", "/test", ""⟩
      else none
    reCompile := fun _ _ => true
    reExec := fun _ _ _ => none }

/-- Oracle for claim C4's counterexample: pattern `a` matches subject `a`
with no capture groups. -/
def oracleC4 : Oracles :=
  { urlTry := fun _ => none
    reCompile := fun _ _ => true
    reExec := execTable [(("a", "a"), ⟨"a", []⟩)] }

/-- Claim C4's counterexample input: the first rule matches, redirects and
stops; a further node remains, so the cap check (with `maxIterations = 0`)
fires while `redirect` is already set. -/
def inputC4 : EngineInput :=
  { url := "http://e/a"
    rules := "RewriteEngine On\nRewriteRule a - [R=302]\nRewriteRule b c"
    serverVariables := fun _ => none }

/-- A configuration with `maxIterations = 0`. -/
def configZero : EngineConfig :=
  { maxIterations := 0, maxUrlLength := 8192, maxRegexSubjectLength := 2048, maxRuleCount := 1000 }

/-- A configuration with `maxIterations = 1`. -/
def configOne : EngineConfig :=
  { maxIterations := 1, maxUrlLength := 8192, maxRegexSubjectLength := 2048, maxRuleCount := 1000 }

/-- Claim C5's counterexample input: every rule is preceded by a failing
condition, so no condition group ever succeeds, yet the iteration counter
reaches the cap. -/
def inputC5 : EngineInput :=
  { url := "a"
    rules := "RewriteEngine On\nRewriteCond x y\nRewriteRule a b\nRewriteCond x y\nRewriteRule a b\nRewriteCond x y\nRewriteRule a b"
    serverVariables := fun _ => none }

/-- Claim C10's counterexample input: the URL starts with `/`, so `new
URL` throws, the fallback regex does not match, and `currentPath` becomes
the whole URL — which already starts with a slash. -/
def inputC10 : EngineInput :=
  { url := "/x", rules := "", serverVariables := fun _ => none }

/-- Claim C10's witness input. -/
def inputC10w : EngineInput :=
  { url := "foo bar", rules := "", serverVariables := fun _ => none }

/-- A loop state whose iteration counter already exceeds
`configZero.maxIterations`. -/
def loopStC4 : LoopSt :=
  { state := { initState oraclePlain inputC4 with iterations := 5 }
    trace := []
    pending := [] }

/-- Claim C8's witness input: the fallback URL parse yields query
`orig`. -/
def inputC8 : EngineInput :=
  { url := "http://h/p?orig", rules := "", serverVariables := fun _ => none }

/-- Claim C8's witness rule: relative substitution without its own query,
`QSA` set. -/
def ruleC8 : RuleDir :=
  { sourceLineNo := 1, rawLine := "RewriteRule ^p$ /new [QSA]",
    pattern := "^p$", substitution := "/new",
    flags := { defaultRuleFlags with qsappend := true } }

/-- Claim C9's witness condition: not negated, one capture group. -/
def condC9 : CondDir :=
  { sourceLineNo := 2, rawLine := "RewriteCond b (b)", testString := "b",
    condPattern := "(b)", flags := { nocase := false, ornext := false },
    isNegated := false }

/-- Claim C9's witness negated condition (same pattern, negated). -/
def condC9n : CondDir :=
  { sourceLineNo := 3, rawLine := "RewriteCond b !(b)", testString := "b",
    condPattern := "(b)", flags := { nocase := false, ornext := false },
    isNegated := true }

/-- Oracle for claim C9's witness: the regex `(b)` matches the subject
`b` with the group capturing `b`. -/
def oracleC9 : Oracles :=
  { urlTry := fun _ => none
    reCompile := fun _ _ => true
    reExec := execTable [(("(b)", "b"), ⟨"b", [some "b"]⟩)] }

/-- An arbitrary concrete evaluation state for claim C9's witness. -/
def stC9 : EvalState :=
  initState oraclePlain inputC10w

/-- The third node of `inputC4.rules` (the node at which the cap check
fires in claim C4's counterexample). -/
def nodeC4 : AstNode :=
  .rewriteRule { sourceLineNo := 3, rawLine := "RewriteRule b c", pattern := "b",
                 substitution := "c", flags := defaultRuleFlags }

/-! ## Theorems -/

/-- C1: the claim states that for URL `http://example.com/aaaa` and rules
`RewriteEngine On` / `RewriteRule ^(a+)+$ /boom [L]` the evaluator rejects
the nested-quantifier pattern through the Regex Safety Layer, tracing the
rule `valid=false`, `met=false` with a "nested quantifiers" message and
leaving `finalUrl = "http://example.com/aaaa"`. The code does not do
this: `createRegex` in `evaluator.ts` calls `new RegExp` directly and
never consults `regex-safety.ts`, so the (syntactically valid) pattern
compiles, matches `aaaa`, and rewrites to `/boom` with a `valid=true`,
`met=true` trace entry — even though the repository's own
`checkPatternSafety` classifies exactly this pattern as unsafe with the
"nested quantifiers" reason. -/
theorem claim_C1_code_behavior :
    (evaluate oracleC1 inputC1 DEFAULT_ENGINE_CONFIG).finalUrl = "http://example.com/boom" ∧
    (evaluate oracleC1 inputC1 DEFAULT_ENGINE_CONFIG).statusCode = none ∧
    (evaluate oracleC1 inputC1 DEFAULT_ENGINE_CONFIG).trace =
      [{ lineNo := 1, rawLine := "RewriteEngine On", valid := true, reached := true,
         met := true, message := none },
       { lineNo := 2, rawLine := "RewriteRule ^(a+)+$ /boom [L]", valid := true,
         reached := true, met := true, message := none }] ∧
    checkPatternSafety "^(a+)+$" DEFAULT_ENGINE_CONFIG =
      { safe := false, reason := some "Potentially dangerous nested quantifiers detected" } := by
  decide

/-- C2 (counterexample): the claim says the trace has exactly one entry
per non-blank source line, in source order, and that `RewriteCond` nodes
not followed by any `RewriteRule` still produce trace entries. Both parts
fail: with the engine on, a trailing `RewriteCond` is buffered in
`pendingConditions` and never flushed, so `inputC2a` (2 non-blank lines)
yields a 1-entry trace; and a comment standing between a condition and
its rule is traced before the buffered condition, so `inputC2b` yields
the line order `[1, 3, 2, 4]`. -/
theorem claim_C2_counterexample :
    (evaluate oraclePlain inputC2a DEFAULT_ENGINE_CONFIG).trace.length = 1 ∧
    countNonBlank inputC2a.rules = 2 ∧
    (evaluate oraclePlain inputC2b DEFAULT_ENGINE_CONFIG).trace.map (fun t => t.lineNo) =
      [1, 3, 2, 4] := by
  decide

/-- C3 (counterexample): with rules `RewriteEngine Off` the claim asserts
`finalUrl` equals the input URL character for character. For the URL
`http://x y` (on which `new URL` throws and the fallback regex matches
with an empty path group) the evaluator re-serializes the parsed
components and returns `http://x y/` — a trailing slash the input does
not have. `statusCode = null` does hold. -/
theorem claim_C3_counterexample :
    firstDirectiveOffNoLaterOn (parse inputC3.rules).nodes = true ∧
    (evaluate oraclePlain inputC3 DEFAULT_ENGINE_CONFIG).statusCode = none ∧
    (evaluate oraclePlain inputC3 DEFAULT_ENGINE_CONFIG).finalUrl = "http://x y/" ∧
    inputC3.url = "http://x y" ∧
    (evaluate oraclePlain inputC3 DEFAULT_ENGINE_CONFIG).finalUrl ≠ inputC3.url := by
  decide

/-- C4 (counterexample): the claim says `status` is `redirect` iff
`redirect` is non-null. With `maxIterations = 0`, the first rule of
`inputC4` matches, sets `redirect = 302` and stops; at the next node the
cap check fires and the early return carries `status = limit-exceeded`
together with `statusCode = 302` — so a non-null redirect does not imply
`status = redirect`. -/
theorem claim_C4_counterexample :
    (evaluate oracleC4 inputC4 configZero).status = .limitExceeded ∧
    (evaluate oracleC4 inputC4 configZero).statusCode = some 302 := by
  decide

/-- C5 (counterexample): the claim says `iterations` counts exactly the
rules whose condition group succeeded and is incremented only after the
rule's pattern has matched. In `inputC5` every rule is guarded by a
condition that never matches (every trace entry of a condition has
`met = false` and every rule entry has `reached = false`), so under the
claim `iterations` would stay 0; but the code increments the counter for
every reached rule before evaluating its conditions, so with
`maxIterations = 1` the evaluation ends with `status = limit-exceeded`. -/
theorem claim_C5_counterexample :
    (evaluate oraclePlain inputC5 configOne).status = .limitExceeded ∧
    (evaluate oraclePlain inputC5 configOne).trace.map (fun t => (t.lineNo, t.reached, t.met)) =
      [(1, true, true), (2, true, false), (3, false, false), (4, true, false), (5, false, false)] := by
  decide

/-- C10 (counterexample): for a URL on which both `new URL` and the
fallback regex fail, the claim says `finalUrl` is `http://` followed by
the empty host and `/` plus the original URL string. For `url = "/x"`
(which already starts with a slash) `buildUrl` does not prepend another
slash: the evaluator returns `http:///x`, not `http:////x` as the
claim's formula demands. -/
theorem claim_C10_counterexample :
    oraclePlain.urlTry inputC10.url = none ∧
    fallbackUrlMatch inputC10.url = none ∧
    (evaluate oraclePlain inputC10 DEFAULT_ENGINE_CONFIG).finalUrl = "http:///x" ∧
    (evaluate oraclePlain inputC10 DEFAULT_ENGINE_CONFIG).finalUrl ≠
      "http://" ++ "" ++ "/" ++ inputC10.url := by
  decide

/-! ### Parser lemmas (claim C6) -/

theorem parseRewriteEngine_lineNo (raw : String) (n : Nat) (args : String) :
    (parseRewriteEngine raw n args).lineNo = n := by
  simp only [parseRewriteEngine]
  repeat' split
  all_goals rfl

theorem parseRewriteBase_lineNo (raw : String) (n : Nat) (args : String) :
    (parseRewriteBase raw n args).lineNo = n := by
  simp only [parseRewriteBase]
  split
  all_goals rfl

theorem parseRewriteCond_lineNo (raw : String) (n : Nat) (args : String) :
    (parseRewriteCond raw n args).lineNo = n := by
  simp only [parseRewriteCond]
  repeat' split
  all_goals rfl

theorem parseRewriteRule_lineNo (raw : String) (n : Nat) (args : String) :
    (parseRewriteRule raw n args).lineNo = n := by
  simp only [parseRewriteRule]
  repeat' split
  all_goals rfl

theorem parseDirective_lineNo (raw : String) (n : Nat) (trimmed : String) :
    (parseDirective raw n trimmed).lineNo = n := by
  simp only [parseDirective]
  split
  · rfl
  · split
    · exact parseRewriteEngine_lineNo ..
    · split
      · exact parseRewriteBase_lineNo ..
      · split
        · exact parseRewriteCond_lineNo ..
        · split
          · exact parseRewriteRule_lineNo ..
          · rfl

theorem parseLine_lineNo (raw : String) (n : Nat) : (parseLine raw n).lineNo = n := by
  simp only [parseLine]
  split
  · rfl
  · split
    · rfl
    · exact parseDirective_lineNo ..

/-- C6: parse is total over input strings — splitting the input on `\n` or
`\r\n` yields exactly one AST node per line (the node count equals the
line count and node `i` carries source line number `i + 1` for every
input), and an ill-formed directive line becomes a `ParseError` node
while parsing continues on the following lines (shown on a concrete
two-line input whose first line lacks the mandatory `RewriteCond`
arguments). Totality itself is witnessed by `parse` being a Lean
function. -/
theorem claim_C6_parse_total :
    (∀ content : String, (parse content).nodes.length = (splitLines content).length) ∧
    (∀ content : String, ∀ i : Nat, ∀ h : i < (parse content).nodes.length,
      ((parse content).nodes.get ⟨i, h⟩).lineNo = i + 1) ∧
    (parse "RewriteCond x\nRewriteRule a b").nodes =
      [.parseError 1 "RewriteCond x" "RewriteCond requires TestString and CondPattern",
       .rewriteRule { sourceLineNo := 2, rawLine := "RewriteRule a b", pattern := "a",
                      substitution := "b", flags := defaultRuleFlags }] := by
  refine ⟨?_, ?_, by decide⟩
  · intro content
    simp [parse]
  · intro content i h
    have hlt : i < ((splitLines content).enum).length := by
      simpa [parse] using h
    simp only [parse, List.get_eq_getElem, List.getElem_map]
    rw [List.getElem_enum, parseLine_lineNo]

/-- C6 witness: the quantified parts of `claim_C6_parse_total` applied to
the concrete input `"RewriteCond x\nRewriteRule a b"` at index 1. -/
theorem claim_C6_parse_total_witness :
    (parse "RewriteCond x\nRewriteRule a b").nodes.length =
      (splitLines "RewriteCond x\nRewriteRule a b").length ∧
    ((parse "RewriteCond x\nRewriteRule a b").nodes.get ⟨1, by decide⟩).lineNo = 2 :=
  ⟨claim_C6_parse_total.1 "RewriteCond x\nRewriteRule a b",
   claim_C6_parse_total.2.1 "RewriteCond x\nRewriteRule a b" 1 (by decide)⟩

/-! ### Condition-group lemmas (claims C7 and C9) -/

theorem orChains_eq_head :
    ∀ conds : List CondDir, conds ≠ [] →
      orChains conds = (orChainHead conds).1 :: (orChainHead conds).2 := by
  intro conds
  induction conds with
  | nil => intro h; exact absurd rfl h
  | cons c rest ih =>
    intro _
    by_cases hc : c.flags.ornext
    · by_cases hr : rest = []
      · subst hr; simp [orChains, orChainHead, hc]
      · simp only [orChains, orChainHead, hc, if_true]
        rw [ih hr]
    · simp [orChains, orChainHead, hc]

theorem orChains_cons_not (c : CondDir) (rest : List CondDir)
    (h : c.flags.ornext = false) :
    orChains (c :: rest) = [c] :: orChains rest := by
  simp [orChains, h]

theorem orChains_cons_or (c : CondDir) (rest : List CondDir)
    (h : c.flags.ornext = true) :
    orChains (c :: rest) = (c :: (orChainHead rest).1) :: (orChainHead rest).2 := by
  by_cases hr : rest = []
  · subst hr; simp [orChains, orChainHead, h]
  · simp only [orChains, h, if_true]
    rw [orChains_eq_head rest hr]

/-- The two modes of the `evaluateConditionGroup` loop: inside an OR chain
(with an arbitrary accumulated `orResult`) and at a chain boundary. -/
theorem evalGroupLoop_modes (O : Oracles) (st : EvalState) :
    ∀ (conds : List CondDir) (g : Bool) (caps : List (Option String)),
      (∀ o : Bool, (evalGroupLoop O st conds g o true caps).1 =
        (g && (o || chainSat O st (orChainHead conds).1) &&
          ((orChainHead conds).2.all (chainSat O st)))) ∧
      ((evalGroupLoop O st conds g false false caps).1 =
        (g && groupSatSpec O st conds)) := by
  intro conds
  induction conds with
  | nil =>
    intro g caps
    constructor
    · intro o
      simp [evalGroupLoop, orChainHead, chainSat]
    · simp [evalGroupLoop, groupSatSpec, orChains]
  | cons c rest ih =>
    intro g caps
    have hnegcase : ∀ o : Bool, o = false →
        (evalGroupLoop O st (c :: rest) g o true caps).1 =
          (g && (o || chainSat O st (orChainHead (c :: rest)).1) &&
            ((orChainHead (c :: rest)).2.all (chainSat O st))) := by
      intro o ho
      subst ho
      by_cases hc : c.flags.ornext = true
      · simp only [evalGroupLoop, hc]
        simp
        rw [(ih g _).1 (evaluateCond O c st).met]
        simp [orChainHead, hc, chainSat, condMet, Bool.or_assoc]
      · rw [Bool.not_eq_true] at hc
        simp only [evalGroupLoop, hc]
        simp
        rw [(ih (g && (evaluateCond O c st).met) _).2]
        simp [orChainHead, hc, chainSat, condMet, groupSatSpec, Bool.and_assoc]
    constructor
    · intro o
      by_cases ho : o = true
      · subst ho
        by_cases hc : c.flags.ornext = true
        · simp only [evalGroupLoop, hc]
          simp
          rw [(ih g caps).1 true]
          simp [orChainHead, hc]
        · rw [Bool.not_eq_true] at hc
          simp only [evalGroupLoop, hc]
          simp
          rw [(ih g caps).2]
          simp [orChainHead, hc, groupSatSpec]
      · rw [Bool.not_eq_true] at ho
        exact hnegcase o ho
    · by_cases hc : c.flags.ornext = true
      · simp only [evalGroupLoop, hc]
        simp
        rw [(ih g _).1 (evaluateCond O c st).met]
        simp [groupSatSpec, orChains_cons_or c rest hc, chainSat, condMet,
          Bool.or_assoc, Bool.and_assoc]
      · rw [Bool.not_eq_true] at hc
        simp only [evalGroupLoop, hc]
        simp
        rw [(ih (g && (evaluateCond O c st).met) _).2]
        simp [groupSatSpec, orChains_cons_not c rest hc, chainSat, condMet, Bool.and_assoc]

/-- One trace entry is produced for every pending condition. -/
theorem condTraceLoop_length (O : Oracles) (st : EvalState) :
    ∀ (conds : List CondDir) (sc : Bool),
      (condTraceLoop O st conds sc).length = conds.length := by
  intro conds
  induction conds with
  | nil => intro sc; simp [condTraceLoop]
  | cons c rest ih =>
    intro sc
    by_cases hsc : sc = true
    · subst hsc; simp [condTraceLoop, ih]
    · rw [Bool.not_eq_true] at hsc
      subst hsc; simp [condTraceLoop, ih]

theorem flatMap_orChains_head (O : Oracles) (st : EvalState) (rest : List CondDir) :
    (orChains rest).flatMap (chainTraceSpec O st) =
      chainTraceSpec O st (orChainHead rest).1 ++
        ((orChainHead rest).2.flatMap (chainTraceSpec O st)) := by
  by_cases hr : rest = []
  · subst hr; simp [orChains, orChainHead, chainTraceSpec]
  · rw [orChains_eq_head rest hr]
    simp [List.flatMap_cons]

/-- The two modes of the condition-trace loop: short-circuiting (inside a
chain whose earlier member already matched) and normal. -/
theorem condTraceLoop_modes (O : Oracles) (st : EvalState) :
    ∀ conds : List CondDir,
      (condTraceLoop O st conds true =
        (orChainHead conds).1.map condSkipTrace ++
          ((orChainHead conds).2.flatMap (chainTraceSpec O st))) ∧
      (condTraceLoop O st conds false =
        (orChains conds).flatMap (chainTraceSpec O st)) := by
  intro conds
  induction conds with
  | nil => constructor <;> simp [condTraceLoop, orChainHead, orChains]
  | cons c rest ih =>
    constructor
    · by_cases hc : c.flags.ornext = true
      · simp only [condTraceLoop, hc]
        simp
        rw [ih.1]
        simp [orChainHead, hc, condSkipTrace]
      · rw [Bool.not_eq_true] at hc
        simp only [condTraceLoop, hc]
        simp
        rw [ih.2]
        simp [orChainHead, hc, condSkipTrace]
    · by_cases hc : c.flags.ornext = true
      · by_cases hm : (evaluateCond O c st).met = true
        · simp only [condTraceLoop, hc, hm]
          simp
          rw [ih.1]
          rw [orChains_cons_or c rest hc]
          simp [List.flatMap_cons, chainTraceSpec, hc, hm, condEvalTrace]
        · rw [Bool.not_eq_true] at hm
          simp only [condTraceLoop, hc, hm]
          simp
          rw [ih.2]
          rw [orChains_cons_or c rest hc]
          simp only [List.flatMap_cons, chainTraceSpec, hc, hm, condEvalTrace,
            Bool.and_false, Bool.false_eq_true, if_false]
          rw [flatMap_orChains_head O st rest]
          simp
      · rw [Bool.not_eq_true] at hc
        simp only [condTraceLoop, hc]
        simp
        rw [ih.2]
        rw [orChains_cons_not c rest hc]
        simp [List.flatMap_cons, chainTraceSpec, hc, condEvalTrace]

/-- C7: for every oracle, state and condition list, the condition group is
satisfied iff all of its OR chains (maximal runs in which every member
except possibly the last carries `ornext`) are satisfied, where a chain is
satisfied iff some member matches; and the emitted condition trace is,
chain by chain, the members evaluated in order until a member with
`ornext` matches, after which the remaining members of that chain are
traced `reached=false`, `met=false`. -/
theorem claim_C7_condition_groups (O : Oracles) (st : EvalState) (conds : List CondDir) :
    (evaluateConditionGroup O conds st).met = groupSatSpec O st conds ∧
    condTraceLoop O st conds false = (orChains conds).flatMap (chainTraceSpec O st) := by
  constructor
  · cases conds with
    | nil => simp [evaluateConditionGroup, groupSatSpec, orChains]
    | cons c rest =>
      simp only [evaluateConditionGroup]
      rw [(evalGroupLoop_modes O st (c :: rest) true []).2]
      simp
  · exact (condTraceLoop_modes O st conds).2

/-! ### Captures provenance (claim C9) -/

/-- A negated condition can never have both a met outcome and a non-empty
capture list: a successful regex match flips `met` to `false`, a failed
match yields `captures = []`. -/
theorem negated_cond_no_captures (O : Oracles) (c : CondDir) (st : EvalState)
    (h : c.isNegated = true) :
    (evaluateCond O c st).met = false ∨ (evaluateCond O c st).captures = [] := by
  simp only [evaluateCond, h]
  split
  · split
    · left; simp
    · right; rfl
  · left; rfl

/-- The `lastCaptures` accumulator of the condition-group loop is either
its initial value or the captures of some member that is not negated,
matched, and produced a non-empty capture list. -/
theorem evalGroupLoop_caps (O : Oracles) (st : EvalState) :
    ∀ (conds : List CondDir) (g o inOr : Bool) (caps : List (Option String)),
      (evalGroupLoop O st conds g o inOr caps).2 = caps ∨
      ∃ c, c ∈ conds ∧ c.isNegated = false ∧ (evaluateCond O c st).met = true ∧
        (evaluateCond O c st).captures ≠ [] ∧
        (evaluateCond O c st).captures = (evalGroupLoop O st conds g o inOr caps).2 := by
  intro conds
  induction conds with
  | nil => intro g o inOr caps; left; simp [evalGroupLoop]
  | cons c rest ih =>
    intro g o inOr caps
    have lift : ∀ (caps' : List (Option String)) (g' o' : Bool) (inOr' : Bool),
        (caps' = caps ∨
          (c.isNegated = false ∧ (evaluateCond O c st).met = true ∧
            (evaluateCond O c st).captures ≠ [] ∧ (evaluateCond O c st).captures = caps')) →
        ((evalGroupLoop O st rest g' o' inOr' caps').2 = caps ∨
          ∃ d, d ∈ c :: rest ∧ d.isNegated = false ∧ (evaluateCond O d st).met = true ∧
            (evaluateCond O d st).captures ≠ [] ∧
            (evaluateCond O d st).captures = (evalGroupLoop O st rest g' o' inOr' caps').2) := by
      intro caps' g' o' inOr' hsrc
      rcases ih g' o' inOr' caps' with hL | ⟨d, hdmem, hdneg, hdmet, hdne, hdeq⟩
      · rcases hsrc with hic | ⟨hneg, hmet, hne, heq⟩
        · left; rw [hL, hic]
        · right; exact ⟨c, List.mem_cons_self c rest, hneg, hmet, hne, by rw [heq, hL]⟩
      · right; exact ⟨d, List.mem_cons_of_mem c hdmem, hdneg, hdmet, hdne, hdeq⟩
    have hsrc :
        (if ((evaluateCond O c st).met && decide ((evaluateCond O c st).captures ≠ [])) = true
           then (evaluateCond O c st).captures else caps) = caps ∨
          (c.isNegated = false ∧ (evaluateCond O c st).met = true ∧
            (evaluateCond O c st).captures ≠ [] ∧
            (evaluateCond O c st).captures =
              (if ((evaluateCond O c st).met &&
                   decide ((evaluateCond O c st).captures ≠ [])) = true
                then (evaluateCond O c st).captures else caps)) := by
      by_cases hupd :
          ((evaluateCond O c st).met && decide ((evaluateCond O c st).captures ≠ [])) = true
      · have hpair := (Bool.and_eq_true _ _).mp hupd
        have hmet : (evaluateCond O c st).met = true := hpair.1
        have hne : (evaluateCond O c st).captures ≠ [] := of_decide_eq_true hpair.2
        have hneg : c.isNegated = false := by
          by_cases hn : c.isNegated = true
          · rcases negated_cond_no_captures O c st hn with h1 | h2
            · rw [hmet] at h1; exact absurd h1 (by simp)
            · exact absurd h2 hne
          · rw [Bool.not_eq_true] at hn; exact hn
        right
        exact ⟨hneg, hmet, hne, by rw [if_pos hupd]⟩
      · left
        rw [if_neg hupd]
    simp only [evalGroupLoop]
    repeat' first
      | exact lift caps _ _ _ (Or.inl rfl)
      | exact lift _ _ _ _ hsrc
      | split

/-! ### State-projection preservation lemmas -/

theorem applyRuleFlags_iterations (f : RuleFlags) (st : EvalState) :
    (applyRuleFlags f st).iterations = st.iterations := by
  simp only [applyRuleFlags]
  repeat' split
  all_goals rfl

theorem applyRuleFlags_condCaptures (f : RuleFlags) (st : EvalState) :
    (applyRuleFlags f st).condCaptures = st.condCaptures := by
  simp only [applyRuleFlags]
  repeat' split
  all_goals rfl

theorem applySubstitution_iterations (O : Oracles) (r : RuleDir) (st : EvalState)
    (m : MatchResult) :
    ((applySubstitution O r st m).2.2).iterations = st.iterations := by
  simp only [applySubstitution]
  repeat' split
  all_goals rfl

theorem applySubstitution_condCaptures (O : Oracles) (r : RuleDir) (st : EvalState)
    (m : MatchResult) :
    ((applySubstitution O r st m).2.2).condCaptures = st.condCaptures := by
  simp only [applySubstitution]
  repeat' split
  all_goals rfl

/-- `state.condCaptures` after a reached rule: either unchanged, or
overwritten with the group's captures when the group was met with a
non-empty capture list. -/
theorem processReachedRule_condCaptures (O : Oracles) (ls : LoopSt) (r : RuleDir) :
    (processReachedRule O ls r).state.condCaptures = ls.state.condCaptures ∨
    ((evaluateConditionGroup O ls.pending
        { ls.state with iterations := ls.state.iterations + 1 }).met = true ∧
      (evaluateConditionGroup O ls.pending
        { ls.state with iterations := ls.state.iterations + 1 }).captures ≠ [] ∧
      (processReachedRule O ls r).state.condCaptures =
        (evaluateConditionGroup O ls.pending
          { ls.state with iterations := ls.state.iterations + 1 }).captures) := by
  by_cases hupd :
      ((evaluateConditionGroup O ls.pending
          { ls.state with iterations := ls.state.iterations + 1 }).met &&
        decide ((evaluateConditionGroup O ls.pending
          { ls.state with iterations := ls.state.iterations + 1 }).captures ≠ [])) = true
  · right
    have hpair := (Bool.and_eq_true _ _).mp hupd
    refine ⟨hpair.1, of_decide_eq_true hpair.2, ?_⟩
    simp only [processReachedRule]
    rw [if_pos hupd]
    repeat' split
    all_goals
      simp [applyRuleFlags_condCaptures, applySubstitution_condCaptures]
  · left
    simp only [processReachedRule]
    rw [if_neg hupd]
    repeat' split
    all_goals
      simp [applyRuleFlags_condCaptures, applySubstitution_condCaptures]

/-- C9: a negated condition never contributes `%N` backreferences. A
negated condition can never have `met = true` together with a non-empty
capture list (a successful match flips `met` to `false`; a failed match
yields no captures); consequently the captures returned by
`evaluateConditionGroup` — when non-empty — stem from some non-negated
member whose match succeeded; and a reached rule either leaves
`state.condCaptures` unchanged or overwrites it with exactly those group
captures (non-empty, group met). -/
theorem claim_C9_negated_conditions (O : Oracles) (st : EvalState) (conds : List CondDir) :
    (∀ c : CondDir, c.isNegated = true →
      ((evaluateCond O c st).met = false ∨ (evaluateCond O c st).captures = [])) ∧
    ((evaluateConditionGroup O conds st).captures ≠ [] →
      ∃ c, c ∈ conds ∧ c.isNegated = false ∧ (evaluateCond O c st).met = true ∧
        (evaluateCond O c st).captures = (evaluateConditionGroup O conds st).captures) ∧
    (∀ (ls : LoopSt) (r : RuleDir),
      (processReachedRule O ls r).state.condCaptures = ls.state.condCaptures ∨
      ((evaluateConditionGroup O ls.pending
          { ls.state with iterations := ls.state.iterations + 1 }).met = true ∧
        (processReachedRule O ls r).state.condCaptures =
          (evaluateConditionGroup O ls.pending
            { ls.state with iterations := ls.state.iterations + 1 }).captures ∧
        (processReachedRule O ls r).state.condCaptures ≠ [])) := by
  refine ⟨fun c h => negated_cond_no_captures O c st h, ?_, ?_⟩
  · intro hne
    cases conds with
    | nil => exact absurd rfl hne
    | cons c0 rest =>
      rcases evalGroupLoop_caps O st (c0 :: rest) true false false [] with
        hL | ⟨d, hmem, hneg, hmet, _, heq⟩
      · exact absurd hL hne
      · exact ⟨d, hmem, hneg, hmet, heq⟩
  · intro ls r
    rcases processReachedRule_condCaptures O ls r with h | ⟨hmet, hne, heq⟩
    · exact Or.inl h
    · exact Or.inr ⟨hmet, heq, by rw [heq]; exact hne⟩

/-- C9 witness: `claim_C9_negated_conditions` applied to the concrete
oracle `oracleC9`, state `stC9` and group `[condC9]`, discharging both
hypotheses (the negated condition `condC9n`, and the non-emptiness of the
group captures). -/
theorem claim_C9_negated_conditions_witness :
    (evaluateCond oracleC9 condC9n stC9).met = false ∧
    condC9.isNegated = false ∧ (evaluateCond oracleC9 condC9 stC9).met = true ∧
    (evaluateCond oracleC9 condC9 stC9).captures =
      (evaluateConditionGroup oracleC9 [condC9] stC9).captures := by
  have h := claim_C9_negated_conditions oracleC9 stC9 [condC9]
  have h1 := h.1 condC9n (by decide)
  rcases h.2.1 (by decide) with ⟨c, hmem, hneg, hmet, heq⟩
  have hc : c = condC9 := by simpa using hmem
  subst hc
  refine ⟨?_, hneg, hmet, heq⟩
  rcases h1 with hm | hcap
  · exact hm
  · exact absurd hcap (by decide)

/-! ### Iteration counting (claim C5) -/

theorem processReachedRule_iterations (O : Oracles) (ls : LoopSt) (r : RuleDir) :
    (processReachedRule O ls r).state.iterations = ls.state.iterations + 1 := by
  simp only [processReachedRule]
  repeat' split
  all_goals
    simp [applyRuleFlags_iterations, applySubstitution_iterations]

theorem stepNode_iterations (O : Oracles) (ls : LoopSt) (n : AstNode) :
    (stepNode O ls n).state.iterations =
      ls.state.iterations +
        (if (isRuleNode n && ls.state.engineEnabled &&
             !ls.state.stopped && !ls.state.hardStop) = true
          then 1 else 0) := by
  cases n with
  | rewriteEngine l raw isOn => simp [stepNode, isRuleNode]
  | rewriteBase l raw b =>
    simp only [stepNode, isRuleNode]
    split
    all_goals simp
  | rewriteCond c =>
    simp only [stepNode, isRuleNode]
    repeat' split
    all_goals simp_all
  | rewriteRule r =>
    simp only [stepNode, isRuleNode, Bool.true_and]
    by_cases he : ls.state.engineEnabled = true
    · by_cases hst : ls.state.stopped = true
      · simp [he, hst]
      · rw [Bool.not_eq_true] at hst
        by_cases hh : ls.state.hardStop = true
        · simp [he, hst, hh]
        · rw [Bool.not_eq_true] at hh
          simp [he, hst, hh, processReachedRule_iterations]
    · rw [Bool.not_eq_true] at he
      simp [he]
  | blankLine l raw => simp [stepNode, isRuleNode]
  | comment l raw t => simp [stepNode, isRuleNode]
  | unknown l raw d a => simp [stepNode, isRuleNode]
  | parseError l raw m => simp [stepNode, isRuleNode]

/-- C5 (amended): the iterations counter is incremented exactly once for
every `RewriteRule` node that is reached (engine enabled and not
stopped), before its condition group is evaluated — regardless of
whether the conditions or the pattern match — and is never incremented by
any other node kind. -/
theorem claim_C5_amended (O : Oracles) (ls : LoopSt) (n : AstNode) :
    (stepNode O ls n).state.iterations =
      ls.state.iterations +
        (if (isRuleNode n && ls.state.engineEnabled &&
             !ls.state.stopped && !ls.state.hardStop) = true
          then 1 else 0) :=
  stepNode_iterations O ls n

/-! ### Trace accounting (claim C2) -/

theorem parseRewriteEngine_not_blank (raw : String) (n : Nat) (args : String) :
    isBlankNode (parseRewriteEngine raw n args) = false := by
  simp only [parseRewriteEngine]
  repeat' split
  all_goals rfl

theorem parseRewriteBase_not_blank (raw : String) (n : Nat) (args : String) :
    isBlankNode (parseRewriteBase raw n args) = false := by
  simp only [parseRewriteBase]
  split
  all_goals rfl

theorem parseRewriteCond_not_blank (raw : String) (n : Nat) (args : String) :
    isBlankNode (parseRewriteCond raw n args) = false := by
  simp only [parseRewriteCond]
  repeat' split
  all_goals rfl

theorem parseRewriteRule_not_blank (raw : String) (n : Nat) (args : String) :
    isBlankNode (parseRewriteRule raw n args) = false := by
  simp only [parseRewriteRule]
  repeat' split
  all_goals rfl

theorem parseDirective_not_blank (raw : String) (n : Nat) (trimmed : String) :
    isBlankNode (parseDirective raw n trimmed) = false := by
  simp only [parseDirective]
  split
  · rfl
  · split
    · exact parseRewriteEngine_not_blank ..
    · split
      · exact parseRewriteBase_not_blank ..
      · split
        · exact parseRewriteCond_not_blank ..
        · split
          · exact parseRewriteRule_not_blank ..
          · rfl

/-- A line becomes a `BlankLine` node exactly when it trims to the empty
string. -/
theorem parseLine_blank_iff (raw : String) (n : Nat) :
    isBlankNode (parseLine raw n) = true ↔ jsTrim raw = "" := by
  simp only [parseLine]
  split
  · rename_i h
    simp [isBlankNode, h]
  · rename_i h
    split
    · simp [isBlankNode, h]
    · simp [parseDirective_not_blank, h]

/-- The non-blank node count of a parsed document equals the count of
non-blank source lines. -/
theorem nodes_nonblank_count (rules : String) :
    ((parse rules).nodes.filter (fun n => !isBlankNode n)).length = countNonBlank rules := by
  have key : ∀ (lines : List String) (k : Nat),
      (((lines.enumFrom k).map (fun p => parseLine p.2 (p.1 + 1))).filter
        (fun n => !isBlankNode n)).length =
        (lines.filter (fun l => jsTrim l ≠ "")).length := by
    intro lines
    induction lines with
    | nil => intro k; simp
    | cons l rest ih =>
      intro k
      simp only [List.enumFrom, List.map_cons, List.filter_cons]
      by_cases hb : isBlankNode (parseLine l (k + 1)) = true
      · have hl : jsTrim l = "" := (parseLine_blank_iff l (k + 1)).mp hb
        simp [hb, hl, ih]
      · have hl : jsTrim l ≠ "" := fun hcontra =>
          hb ((parseLine_blank_iff l (k + 1)).mpr hcontra)
        simp [hb, hl, ih]
  have henum : (splitLines rules).enum = (splitLines rules).enumFrom 0 := rfl
  simp only [parse, countNonBlank, henum]
  exact key (splitLines rules) 0

theorem processReachedRule_count (O : Oracles) (ls : LoopSt) (r : RuleDir) :
    (processReachedRule O ls r).trace.length + (processReachedRule O ls r).pending.length =
      ls.trace.length + ls.pending.length + 1 := by
  simp only [processReachedRule]
  repeat' split
  all_goals simp [condTraceLoop_length]
  all_goals omega

theorem stepNode_count (O : Oracles) (ls : LoopSt) (n : AstNode) :
    (stepNode O ls n).trace.length + (stepNode O ls n).pending.length =
      ls.trace.length + ls.pending.length + (if isBlankNode n = true then 0 else 1) := by
  cases n
  all_goals simp only [stepNode, isBlankNode]
  all_goals repeat' split
  all_goals simp_all [processReachedRule_count, condTraceLoop_length]
  all_goals omega

theorem countRuleNodes_cons (n : AstNode) (rest : List AstNode) :
    countRuleNodes (n :: rest) =
      (if isRuleNode n = true then 1 else 0) + countRuleNodes rest := by
  simp only [countRuleNodes, List.filter_cons]
  split
  all_goals simp [Nat.add_comm]

/-- When the rule-node count is within the iteration budget, the loop
never takes the early `limit-exceeded` exit, and the final trace and
pending-condition buffer together account for exactly the non-blank
nodes. -/
theorem runNodes_no_limit (cfg : EngineConfig) (O : Oracles) :
    ∀ (nodes : List AstNode) (ls : LoopSt),
      ls.state.iterations + countRuleNodes nodes ≤ cfg.maxIterations →
      ∃ ls', runNodes cfg O nodes ls = .inl ls' ∧
        ls'.trace.length + ls'.pending.length =
          ls.trace.length + ls.pending.length +
            (nodes.filter (fun n => !isBlankNode n)).length := by
  intro nodes
  induction nodes with
  | nil => intro ls _; exact ⟨ls, rfl, by simp⟩
  | cons n rest ih =>
    intro ls h
    have hle : ls.state.iterations ≤ cfg.maxIterations :=
      le_trans (Nat.le_add_right _ _) h
    have hnot : ¬(ls.state.iterations > cfg.maxIterations) := not_lt.mpr hle
    have hbound : (stepNode O ls n).state.iterations ≤
        ls.state.iterations + (if isRuleNode n = true then 1 else 0) := by
      rw [stepNode_iterations]
      by_cases hr : isRuleNode n = true
      · simp only [hr, Bool.true_and]
        by_cases hcond :
            (ls.state.engineEnabled && !ls.state.stopped && !ls.state.hardStop) = true
        · rw [if_pos hcond]
          simp
        · rw [if_neg hcond]
          simp
      · rw [Bool.not_eq_true] at hr
        simp [hr]
    have hrec : (stepNode O ls n).state.iterations + countRuleNodes rest ≤
        cfg.maxIterations := by
      rw [countRuleNodes_cons] at h
      by_cases hr : isRuleNode n = true
      · simp only [hr, if_pos rfl] at h hbound
        omega
      · simp only [if_neg (fun hcontra => hr hcontra)] at h hbound
        omega
    obtain ⟨ls', hrun, hcount⟩ := ih (stepNode O ls n) hrec
    refine ⟨ls', ?_, ?_⟩
    · simp only [runNodes]
      rw [if_neg hnot]
      exact hrun
    · rw [hcount, stepNode_count]
      by_cases hb : isBlankNode n = true
      · simp [List.filter_cons, hb]
      · simp [List.filter_cons, hb]
        omega

/-- C2 (amended): provided the iteration cap cannot fire (the rule-node
count is within `maxIterations`), the loop completes normally and the
trace contains exactly one entry per non-blank source line **except** for
the `RewriteCond` directives still buffered in `pendingConditions` when
the document ends (conditions collected with the engine on that are never
followed by a rule produce no trace entries):
`|trace| + |final pending| = count of non-blank lines`. Buffered
conditions are moreover emitted at their binding rule's position, which
may be after intervening non-condition lines, so strict source order can
also be violated (see the counterexample). -/
theorem claim_C2_amended (cfg : EngineConfig) (O : Oracles) (input : EngineInput)
    (h : countRuleNodes (parse input.rules).nodes ≤ cfg.maxIterations) :
    ∃ ls', runNodes cfg O (parse input.rules).nodes
        { state := initState O input, trace := [], pending := [] } = .inl ls' ∧
      (evaluate O input cfg).trace = ls'.trace ∧
      (evaluate O input cfg).trace.length + ls'.pending.length =
        countNonBlank input.rules := by
  obtain ⟨ls', hrun, hcount⟩ :=
    runNodes_no_limit cfg O (parse input.rules).nodes
      { state := initState O input, trace := [], pending := [] } (by simpa [initState] using h)
  have htrace : (evaluate O input cfg).trace = ls'.trace := by
    simp only [evaluate, hrun]
    rfl
  refine ⟨ls', hrun, htrace, ?_⟩
  rw [htrace]
  simpa [nodes_nonblank_count] using hcount

/-- C2 witness: `claim_C2_amended` applied to the trailing-condition
input `inputC2a` under the default configuration. -/
theorem claim_C2_amended_witness :
    (runNodes DEFAULT_ENGINE_CONFIG oraclePlain (parse inputC2a.rules).nodes
      { state := initState oraclePlain inputC2a, trace := [], pending := [] }).isLeft = true ∧
    countNonBlank inputC2a.rules = 2 := by
  obtain ⟨ls', hrun, -, -⟩ :=
    claim_C2_amended DEFAULT_ENGINE_CONFIG oraclePlain inputC2a (by decide)
  exact ⟨by rw [hrun]; rfl, by decide⟩

/-! ### Engine-off runs (claim C3) -/

/-- Unfolding of claim C3's hypothesis at a cons cell. -/
theorem firstOff_cons (m : AstNode) (rest : List AstNode)
    (h : firstDirectiveOffNoLaterOn (m :: rest) = true) :
    isEngineOnNode m = false ∧
    (firstDirectiveOffNoLaterOn rest = true ∨
      rest.all (fun x => !isEngineOnNode x) = true) := by
  cases m with
  | blankLine l raw =>
    refine ⟨rfl, Or.inl ?_⟩
    simpa [firstDirectiveOffNoLaterOn, isBlankOrComment] using h
  | comment l raw t =>
    refine ⟨rfl, Or.inl ?_⟩
    simpa [firstDirectiveOffNoLaterOn, isBlankOrComment] using h
  | rewriteEngine l raw isOn =>
    cases isOn
    · refine ⟨rfl, Or.inr ?_⟩
      simpa [firstDirectiveOffNoLaterOn, isBlankOrComment] using h
    · simp [firstDirectiveOffNoLaterOn, isBlankOrComment] at h
  | rewriteBase l raw b =>
    simp [firstDirectiveOffNoLaterOn, isBlankOrComment] at h
  | rewriteCond c =>
    simp [firstDirectiveOffNoLaterOn, isBlankOrComment] at h
  | rewriteRule r =>
    simp [firstDirectiveOffNoLaterOn, isBlankOrComment] at h
  | unknown l raw d a =>
    simp [firstDirectiveOffNoLaterOn, isBlankOrComment] at h
  | parseError l raw msg =>
    simp [firstDirectiveOffNoLaterOn, isBlankOrComment] at h

/-- Claim C3's hypothesis implies that no node anywhere in the document
is `RewriteEngine On`. -/
theorem firstOff_all :
    ∀ nodes : List AstNode, firstDirectiveOffNoLaterOn nodes = true →
      ∀ n ∈ nodes, isEngineOnNode n = false := by
  intro nodes
  induction nodes with
  | nil => intro _ n hn; exact absurd hn (List.not_mem_nil n)
  | cons m rest ih =>
    intro h n hn
    obtain ⟨hm, hrest⟩ := firstOff_cons m rest h
    rcases List.mem_cons.mp hn with hEq | hMem
    · exact hEq ▸ hm
    · rcases hrest with h1 | h2
      · exact ih h1 n hMem
      · have := List.all_eq_true.mp h2 n hMem
        simpa using this

/-- With the engine off, a step never changes the URL components, the
redirect, the iteration counter, or the engine flag (no node in claim
C3's scope is `RewriteEngine On`). -/
theorem stepNode_engineOff (O : Oracles) (ls : LoopSt) (n : AstNode)
    (hEng : ls.state.engineEnabled = false) (hOn : isEngineOnNode n = false) :
    (stepNode O ls n).state.engineEnabled = false ∧
    (stepNode O ls n).state.scheme = ls.state.scheme ∧
    (stepNode O ls n).state.host = ls.state.host ∧
    (stepNode O ls n).state.currentPath = ls.state.currentPath ∧
    (stepNode O ls n).state.queryString = ls.state.queryString ∧
    (stepNode O ls n).state.redirect = ls.state.redirect ∧
    (stepNode O ls n).state.iterations = ls.state.iterations := by
  cases n with
  | rewriteEngine l raw isOn =>
    have hOff : isOn = false := by simpa [isEngineOnNode] using hOn
    subst hOff
    simp [stepNode]
  | rewriteBase l raw b => simp [stepNode, hEng]
  | rewriteCond c => simp [stepNode, hEng]
  | rewriteRule r => simp [stepNode, hEng]
  | blankLine l raw => simp [stepNode, hEng]
  | comment l raw t => simp [stepNode, hEng]
  | unknown l raw d a => simp [stepNode, hEng]
  | parseError l raw m => simp [stepNode, hEng]

/-- A run over nodes none of which turns the engine on leaves the URL
components and the redirect untouched and never takes the early exit. -/
theorem runNodes_engineOff (cfg : EngineConfig) (O : Oracles) :
    ∀ (nodes : List AstNode) (ls : LoopSt),
      (∀ n ∈ nodes, isEngineOnNode n = false) →
      ls.state.engineEnabled = false →
      ls.state.iterations ≤ cfg.maxIterations →
      ∃ ls', runNodes cfg O nodes ls = .inl ls' ∧
        ls'.state.scheme = ls.state.scheme ∧ ls'.state.host = ls.state.host ∧
        ls'.state.currentPath = ls.state.currentPath ∧
        ls'.state.queryString = ls.state.queryString ∧
        ls'.state.redirect = ls.state.redirect := by
  intro nodes
  induction nodes with
  | nil => intro ls _ _ _; exact ⟨ls, rfl, rfl, rfl, rfl, rfl, rfl⟩
  | cons n rest ih =>
    intro ls hAll hEng hIter
    have hnot : ¬(ls.state.iterations > cfg.maxIterations) := not_lt.mpr hIter
    obtain ⟨hE, hS, hH, hP, hQ, hR, hI⟩ :=
      stepNode_engineOff O ls n hEng (hAll n (List.mem_cons_self n rest))
    obtain ⟨ls', hrun, hS', hH', hP', hQ', hR'⟩ :=
      ih (stepNode O ls n) (fun m hm => hAll m (List.mem_cons_of_mem n hm)) hE
        (hI ▸ hIter)
    refine ⟨ls', ?_, hS'.trans hS, hH'.trans hH, hP'.trans hP, hQ'.trans hQ,
      hR'.trans hR⟩
    simp only [runNodes]
    rw [if_neg hnot]
    exact hrun

/-- C3 (amended): for every input whose first directive is
`RewriteEngine Off` with no later directive turning the engine on,
`statusCode = null` and `status = ok` hold, but `finalUrl` is the
re-serialization `buildUrl` of the `parseUrl` components of the input URL
rather than the input string itself; the two coincide exactly for URLs
that round-trip (the counterexample `http://x y` does not). -/
theorem claim_C3_amended (cfg : EngineConfig) (O : Oracles) (input : EngineInput)
    (h : firstDirectiveOffNoLaterOn (parse input.rules).nodes = true) :
    (evaluate O input cfg).finalUrl =
      buildUrl (parseUrl (O.urlTry input.url) input.url).scheme
        (parseUrl (O.urlTry input.url) input.url).host
        (parseUrl (O.urlTry input.url) input.url).path
        (parseUrl (O.urlTry input.url) input.url).query ∧
    (evaluate O input cfg).statusCode = none ∧
    (evaluate O input cfg).status = .ok := by
  obtain ⟨ls', hrun, hS, hH, hP, hQ, hR⟩ :=
    runNodes_engineOff cfg O (parse input.rules).nodes
      { state := initState O input, trace := [], pending := [] }
      (firstOff_all (parse input.rules).nodes h) rfl (by simp [initState])
  have heval : evaluate O input cfg = finalizeOutput ls' := by
    simp only [evaluate, hrun]
  rw [heval]
  have hRnone : ls'.state.redirect = none := by
    rw [hR]; rfl
  refine ⟨?_, ?_, ?_⟩
  · simp only [finalizeOutput, buildUrl]
    rw [hS, hH, hP, hQ]
    rfl
  · simp only [finalizeOutput]
    rw [hRnone]
  · simp only [finalizeOutput]
    rw [hRnone]

/-- C3 witness: `claim_C3_amended` on spec scenario 1 (`RewriteEngine Off`
with a rule that would otherwise rewrite), where the URL round-trips, so
`finalUrl` also equals the input URL. -/
theorem claim_C3_amended_witness :
    (evaluate oracleC3w inputC3w DEFAULT_ENGINE_CONFIG).statusCode = none ∧
    (evaluate oracleC3w inputC3w DEFAULT_ENGINE_CONFIG).finalUrl =
      "http://example.com/test" := by
  have h := claim_C3_amended DEFAULT_ENGINE_CONFIG oracleC3w inputC3w (by decide)
  exact ⟨h.2.1, h.1.trans (by decide)⟩

/-! ### Status classification (claim C4) -/

/-- The only early-exit output of the loop is the `limit-exceeded` one. -/
theorem runNodes_inr_limit (cfg : EngineConfig) (O : Oracles) :
    ∀ (nodes : List AstNode) (ls : LoopSt) (out : EngineOutput),
      runNodes cfg O nodes ls = .inr out →
      out.status = .limitExceeded ∧ out.statusCode = ls.state.redirect ∨
      out.status = .limitExceeded := by
  intro nodes
  induction nodes with
  | nil =>
    intro ls out h
    exact absurd h (by simp [runNodes])
  | cons n rest ih =>
    intro ls out h
    simp only [runNodes] at h
    by_cases hcap : ls.state.iterations > cfg.maxIterations
    · rw [if_pos hcap] at h
      have : out = limitOutput ls := by
        injection h with h'
        exact h'.symm
      right
      rw [this]
      rfl
    · rw [if_neg hcap] at h
      rcases ih (stepNode O ls n) out h with h1 | h2
      · exact Or.inr h1.1
      · exact Or.inr h2

/-- C4 (amended): when `iterations > maxIterations` holds while a node
remains to be processed, the loop returns the `limit-exceeded` output
immediately — the remaining nodes are neither processed nor traced (the
trace is exactly the one accumulated so far) and the status is
`limit-exceeded` even when `redirect` is non-null; if the counter only
passes the cap at the very last node, no check remains and the run ends
normally. On a normal completion, the status is `redirect` iff `redirect
≠ null` and `ok` otherwise — never `limit-exceeded`; on an early exit
the status is always `limit-exceeded`. -/
theorem claim_C4_amended :
    (∀ (cfg : EngineConfig) (O : Oracles) (n : AstNode) (rest : List AstNode)
        (ls : LoopSt), ls.state.iterations > cfg.maxIterations →
      runNodes cfg O (n :: rest) ls = .inr (limitOutput ls) ∧
      (limitOutput ls).status = .limitExceeded ∧
      (limitOutput ls).statusCode = ls.state.redirect ∧
      (limitOutput ls).trace = ls.trace) ∧
    (∀ (cfg : EngineConfig) (O : Oracles) (input : EngineInput) (ls' : LoopSt),
      runNodes cfg O (parse input.rules).nodes
          { state := initState O input, trace := [], pending := [] } = .inl ls' →
      (evaluate O input cfg).status =
        (match ls'.state.redirect with
          | some _ => EngineStatus.redirect
          | none => EngineStatus.ok) ∧
      (evaluate O input cfg).statusCode = ls'.state.redirect) ∧
    (∀ (cfg : EngineConfig) (O : Oracles) (input : EngineInput) (out : EngineOutput),
      runNodes cfg O (parse input.rules).nodes
          { state := initState O input, trace := [], pending := [] } = .inr out →
      (evaluate O input cfg).status = .limitExceeded) := by
  refine ⟨?_, ?_, ?_⟩
  · intro cfg O n rest ls hcap
    refine ⟨?_, rfl, rfl, rfl⟩
    simp only [runNodes]
    rw [if_pos hcap]
  · intro cfg O input ls' hrun
    have heval : evaluate O input cfg = finalizeOutput ls' := by
      simp only [evaluate, hrun]
    rw [heval]
    exact ⟨rfl, rfl⟩
  · intro cfg O input out hrun
    have heval : evaluate O input cfg = out := by
      simp only [evaluate, hrun]
    rw [heval]
    rcases runNodes_inr_limit cfg O (parse input.rules).nodes
        { state := initState O input, trace := [], pending := [] } out hrun with h1 | h2
    · exact h1.1
    · exact h2

/-- C4 witness: the early-exit conjunct of `claim_C4_amended` applied at a
concrete loop state whose counter (5) exceeds `configZero`'s cap (0), and
the normal-completion conjunct applied to an empty-rules input. -/
theorem claim_C4_amended_witness :
    runNodes configZero oraclePlain [nodeC4] loopStC4 =
      .inr (limitOutput loopStC4) ∧
    (evaluate oraclePlain inputC10w DEFAULT_ENGINE_CONFIG).status = .ok := by
  constructor
  · exact (claim_C4_amended.1 configZero oraclePlain nodeC4 [] loopStC4 (by decide)).1
  · have hrun : runNodes DEFAULT_ENGINE_CONFIG oraclePlain (parse inputC10w.rules).nodes
        { state := initState oraclePlain inputC10w, trace := [], pending := [] } =
        .inl (stepNode oraclePlain
          { state := initState oraclePlain inputC10w, trace := [], pending := [] }
          (.blankLine 1 "")) := rfl
    have h := (claim_C4_amended.2.1 DEFAULT_ENGINE_CONFIG oraclePlain inputC10w _ hrun).1
    rw [h]
    rfl

/-! ### Query-string policy (claim C8) -/

/-- C8: for a matched rule whose substitution is not `-` and whose
resolved substitution is not an absolute `http(s)` URL, the new query is
computed from the substitution's own query (the part after the first
`?`): with `qsdiscard` only that query survives (possibly empty); else
with `qsappend` and a non-empty original query the original is appended
with `&` (or taken alone when the substitution has no query); otherwise
an empty substitution query inherits the original query string. -/
theorem claim_C8_query_policy (O : Oracles) (rule : RuleDir) (st : EvalState)
    (m : MatchResult)
    (hsub : rule.substitution ≠ "-")
    (habs : isAbsoluteHttpUrl (String.mk (dollarDigitAux m
      (resolveVariables rule.substitution
        { st with ruleCaptures := m.captures }).data)) = false) :
    (applySubstitution O rule st m).2.1 =
      (let resolved := String.mk (dollarDigitAux m
        (resolveVariables rule.substitution { st with ruleCaptures := m.captures }).data)
       let nq := (splitAtFirstQuestion resolved).2
       if rule.flags.qsdiscard = true then nq
       else if rule.flags.qsappend = true ∧ st.queryString ≠ "" then
         (if nq ≠ "" then nq ++ "&" ++ st.queryString else st.queryString)
       else if nq = "" then st.queryString
       else nq) := by
  simp only [applySubstitution]
  rw [if_neg hsub]
  rw [if_neg (by simp [habs] : ¬(isAbsoluteHttpUrl (String.mk (dollarDigitAux m
    (resolveVariables rule.substitution
      { st with ruleCaptures := m.captures }).data)) = true))]
  by_cases hd : rule.flags.qsdiscard = true
  · simp [hd]
  · by_cases ha : rule.flags.qsappend = true
    · by_cases hq : st.queryString = ""
      · simp [hd, ha, hq]
      · simp [hd, ha, hq]
    · simp [hd, ha]

/-- C8 witness: `claim_C8_query_policy` at the concrete rule `ruleC8`
(`QSA`, substitution `/new` with no own query) against the state parsed
from `http://h/p?orig`: the original query `orig` is inherited via the
append rule. -/
theorem claim_C8_query_policy_witness :
    (applySubstitution oraclePlain ruleC8 (initState oraclePlain inputC8)
      { full := "p", captures := [] }).2.1 = "orig" := by
  have h := claim_C8_query_policy oraclePlain ruleC8 (initState oraclePlain inputC8)
    { full := "p", captures := [] } (by decide) (by decide)
  exact h.trans (by decide)

/-! ### Fallback URL handling (claim C10) -/

theorem buildUrl_http_empty (p : String) :
    buildUrl "http" "" p "" =
      "http://" ++ (if strStarts p "/" = true then p else "/" ++ p) := by
  have happ : ∀ s : String, "http" ++ "://" ++ "" ++ s ++ "" = "http://" ++ s := by
    intro s
    apply String.ext
    simp [String.data_append]
  simp only [buildUrl]
  have hq : (if ("" : String) ≠ "" then "?" ++ "" else "") = "" := by simp
  rw [hq]
  by_cases hs : strStarts p "/" = true
  · rw [if_pos hs]
    exact happ p
  · rw [if_neg hs]
    exact happ ("/" ++ p)

/-- C10 (amended): for a URL on which both `new URL` and the fallback
regex fail, evaluation does not fail — the initial state takes scheme
`http`, empty host, empty query, and `currentPath` equal to the whole URL
string; with no effective rewrite (no directive turns the engine on) the
final URL is `http://` followed by the URL, preceded by `/` only when the
URL does not already start with `/`. -/
theorem claim_C10_amended (cfg : EngineConfig) (O : Oracles) (input : EngineInput)
    (hurl : O.urlTry input.url = none)
    (hfb : fallbackUrlMatch input.url = none)
    (hoff : ∀ n ∈ (parse input.rules).nodes, isEngineOnNode n = false) :
    parseUrl (O.urlTry input.url) input.url =
      { scheme := "http", host := "", path := input.url, query := "" } ∧
    (initState O input).currentPath = input.url ∧
    (initState O input).scheme = "http" ∧ (initState O input).host = "" ∧
    (initState O input).queryString = "" ∧
    (evaluate O input cfg).finalUrl =
      "http://" ++ (if strStarts input.url "/" = true then input.url
                    else "/" ++ input.url) ∧
    (evaluate O input cfg).statusCode = none := by
  have hparse : parseUrl (O.urlTry input.url) input.url =
      { scheme := "http", host := "", path := input.url, query := "" } := by
    rw [hurl]
    simp only [parseUrl]
    rw [hfb]
  obtain ⟨ls', hrun, hS, hH, hP, hQ, hR⟩ :=
    runNodes_engineOff cfg O (parse input.rules).nodes
      { state := initState O input, trace := [], pending := [] }
      hoff rfl (by simp [initState])
  have heval : evaluate O input cfg = finalizeOutput ls' := by
    simp only [evaluate, hrun]
  have hfields : (initState O input).currentPath = input.url ∧
      (initState O input).scheme = "http" ∧ (initState O input).host = "" ∧
      (initState O input).queryString = "" := by
    refine ⟨?_, ?_, ?_, ?_⟩
    all_goals simp [initState, hparse]
  refine ⟨hparse, hfields.1, hfields.2.1, hfields.2.2.1, hfields.2.2.2, ?_, ?_⟩
  · rw [heval]
    simp only [finalizeOutput]
    rw [hS, hP, hH, hQ]
    have : (initState O input).scheme = "http" := hfields.2.1
    rw [hfields.2.1, hfields.2.2.1, hfields.1, hfields.2.2.2]
    exact buildUrl_http_empty input.url
  · rw [heval]
    simp only [finalizeOutput]
    rw [hR]
    rfl

/-- C10 witness: `claim_C10_amended` at the URL `foo bar` (no scheme, so
`new URL` throws and the fallback regex fails) with empty rules. -/
theorem claim_C10_amended_witness :
    (evaluate oraclePlain inputC10w DEFAULT_ENGINE_CONFIG).finalUrl = "http:///foo bar" ∧
    (evaluate oraclePlain inputC10w DEFAULT_ENGINE_CONFIG).statusCode = none := by
  have h := claim_C10_amended DEFAULT_ENGINE_CONFIG oraclePlain inputC10w rfl
    (by decide) (by decide)
  exact ⟨h.2.2.2.2.2.1.trans (by decide), h.2.2.2.2.2.2⟩

end Htaccess